import Mathlib

/-!
# Mushroom fruiting chamber controller: sensor decoder and controller cycle

A shallow embedding of `src/src/dht22-pico.c` and `src/src/main.c`.

* Machine integers are `Nat`/`Int` with explicit reduction modulo `2^w`.
* C `float` and `double` values are modelled by the exact rational number they
  denote. Every arithmetic operation and conversion is the exact operation
  followed by IEEE-754 round-to-nearest-even to a 24-bit (`float`) or 53-bit
  (`double`) significand. All values that occur lie far inside the normal
  exponent range, so overflow, subnormals, infinities and NaN never arise.
* Hardware inputs (pulse durations measured by `wait_for`, the clock
  `time_us_64`, the float-switch pin) are explicit arguments; global variables
  and GPIO outputs are an explicit state record.
-/

namespace FruitingChamber

/-! ## Floating point -/

/-- Nearest integer to a rational, ties going to the even neighbour. -/
def rne (s : ℚ) : ℤ :=
  if s - ⌊s⌋ < 1 / 2 then ⌊s⌋
  else if 1 / 2 < s - ⌊s⌋ then ⌊s⌋ + 1
  else if ⌊s⌋ % 2 = 0 then ⌊s⌋ else ⌊s⌋ + 1

/-- IEEE-754 round-to-nearest-even of an exact value to a significand of
`p` bits (the exponent range is not bounded). -/
def roundNE (p : ℕ) (q : ℚ) : ℚ :=
  if q = 0 then 0
  else (rne (q / (2 : ℚ) ^ (Int.log 2 |q| - ((p : ℤ) - 1))) : ℚ)
    * (2 : ℚ) ^ (Int.log 2 |q| - ((p : ℤ) - 1))

/-- Rounding of an exact value to C `float` (binary32). -/
def f32 (q : ℚ) : ℚ := roundNE 24 q

/-- Rounding of an exact value to C `double` (binary64). -/
def f64 (q : ℚ) : ℚ := roundNE 53 q

/-- The C macro `isnan`: every value of the model is a finite rational. -/
def isnan (_x : ℚ) : Bool := false

/-! ## dht22-pico.h -/

def DHT_OK : ℕ := 0
def DHT_ERR_CHECKSUM : ℕ := 1
def DHT_ERR_NAN : ℕ := 2

/-- The struct `dht_reading`. -/
structure dht_reading where
  pin : ℕ
  humidity : ℚ
  temp_celsius : ℚ
deriving DecidableEq

/-! ## dht22-pico.c -/

/-- The function `word`: `(float) ((first << 8) + second)`. -/
def word (first second : ℕ) : ℚ := f32 (((first <<< 8) + second : ℕ) : ℚ)

/-- One iteration of the bit loop of `dht_read` (lines 71-78). `pulse bit` is
the value returned by `wait_for(dht->pin, 0)` for this bit; it is truncated to
`uint8_t count`. -/
def dht_read_bit (pulse : ℕ → ℕ) (data : List ℕ) (bit : ℕ) : List ℕ :=
  let count := pulse bit % 256
  let data := data.set (bit / 8) ((data.getD (bit / 8) 0 * 2) % 256)
  if count > 50 then data.set (bit / 8) (data.getD (bit / 8) 0 ||| 1) else data

/-- The array `data[5]` after the 40 iterations of the bit loop of `dht_read`. -/
def dht_read_frame (pulse : ℕ → ℕ) : List ℕ :=
  (List.range 40).foldl (dht_read_bit pulse) [0, 0, 0, 0, 0]

/-- The checksum test and decoding of `dht_read` (lines 85-104) on the
assembled array `data`; returns the status and the updated `*dht`. -/
def dht_read_decode (data : List ℕ) (dht : dht_reading) : ℕ × dht_reading :=
  if data.getD 4 0 = (data.getD 0 0 + data.getD 1 0 + data.getD 2 0 + data.getD 3 0) &&& 0xFF then
    let humidity := f32 (word (data.getD 0 0) (data.getD 1 0) / f32 10)
    let temp := f32 (word (data.getD 2 0 &&& 0x7F) (data.getD 3 0) / f32 10)
    let temp := if data.getD 2 0 &&& 0x80 ≠ 0 then -temp else temp
    if isnan temp || isnan humidity || decide (temp = 0) then
      (DHT_ERR_NAN, dht)
    else
      (DHT_OK, { dht with humidity := humidity, temp_celsius := temp })
  else
    (DHT_ERR_CHECKSUM, dht)

/-- The function `dht_read`, given the durations measured for the 40 bits. -/
def dht_read (pulse : ℕ → ℕ) (dht : dht_reading) : ℕ × dht_reading :=
  dht_read_decode (dht_read_frame pulse) dht

/-- A pulse train that makes `dht_read` assemble the given frame: 70 us for a
one bit and 26 us for a zero bit, most significant bit first. -/
def pulsesOf (frame : List ℕ) : ℕ → ℕ :=
  fun bit => if (frame.getD (bit / 8) 0).testBit (7 - bit % 8) then 70 else 26

/-- The function `dht_init`: only `pin` is assigned, the other two fields
keep whatever the uninitialised local held (`junk`). -/
def dht_init (pin : ℕ) (junk : dht_reading) : dht_reading :=
  { junk with pin := pin }

/-! ## main.c -/

/-- Unsigned 64-bit subtraction of two `uint64_t` values. -/
def u64_sub (a b : ℕ) : ℕ := (a + 2 ^ 64 - b) % 2 ^ 64

/-- Conversion of `int8_t`-range overflow: reduction into `[-128, 127]`. -/
def int8_wrap (x : ℤ) : ℤ := (x + 128) % 256 - 128

/-- The global variables of `main.c` together with the levels of the GPIO
outputs it drives. -/
structure State where
  temp_humidity_sensor : dht_reading
  last_air_cycle_time : ℕ
  last_light_cycle_time : ℕ
  temp_humidity_sensor_fail_cycles : ℤ
  led : Bool
  fans : Bool
  heat_pads : Bool
  light : Bool
  pump : Bool
  humidifier : Bool
deriving DecidableEq

/-- What one pass of the main loop reads from the hardware: the 40 pulse
durations seen by `dht_read`, the two values of `time_us_64()` and the level of
the float-switch input pin. -/
structure CycleInput where
  pulse : ℕ → ℕ
  air_time : ℕ
  light_time : ℕ
  float_switch_in : Bool

/-- The function `read_temperature`, computed in `double` and cast to `float`. -/
def read_temperature (sensor : dht_reading) : ℚ :=
  f32 (f64 (f64 (f64 (sensor.temp_celsius * 9) / 5) + 32))

/-- The function `read_humidity`. -/
def read_humidity (sensor : dht_reading) : ℚ := sensor.humidity

/-- The function `is_water_low`, given the level of `FLOAT_SWITCH_IN_GPIO`. -/
def is_water_low (float_switch_in : Bool) : Bool := !float_switch_in

/-- The value `minutes_since_last_air_cycle`: the `uint64_t` difference is
converted to `float` and divided by `60000000.0f`. -/
def minutes_since_last_air_cycle (current_time last_air_cycle_time : ℕ) : ℚ :=
  f32 (f32 (u64_sub current_time last_air_cycle_time : ℕ) / f32 60000000)

/-- The function `is_air_cycle_active`; returns the result and the new value of
`last_air_cycle_time`. -/
def is_air_cycle_active (current_time last_air_cycle_time : ℕ) : Bool × ℕ :=
  if minutes_since_last_air_cycle current_time last_air_cycle_time ≥ 15 then
    (true, current_time)
  else if minutes_since_last_air_cycle current_time last_air_cycle_time < 2 then
    (true, last_air_cycle_time)
  else
    (false, last_air_cycle_time)

/-- The value `hours_since_last_light_cycle`. -/
def hours_since_last_light_cycle (current_time last_light_cycle_time : ℕ) : ℚ :=
  f32 (f32 (u64_sub current_time last_light_cycle_time : ℕ) / f32 3600000000)

/-- The function `is_light_cycle_active`; returns the result and the new value
of `last_light_cycle_time`. -/
def is_light_cycle_active (current_time last_light_cycle_time : ℕ) : Bool × ℕ :=
  if hours_since_last_light_cycle current_time last_light_cycle_time < 12 then
    (true, last_light_cycle_time)
  else if hours_since_last_light_cycle current_time last_light_cycle_time ≥ 24 then
    (false, current_time)
  else
    (false, last_light_cycle_time)

/-- The state left by the start-up function of `main.c` (named after it, in
British spelling, as its own name is reserved in Lean): all switches off, the LED on, the failure
count zero and both timers set from the clock. -/
def initialise (air_time light_time : ℕ) (junk : dht_reading) : State :=
  { temp_humidity_sensor := dht_init 0 junk
    last_air_cycle_time := air_time
    last_light_cycle_time := light_time
    temp_humidity_sensor_fail_cycles := 0
    led := true
    fans := false
    heat_pads := false
    light := false
    pump := false
    humidifier := false }

/-- The air-cycle test as evaluated inside `fans_active`: the right operand of
`||` runs only when the temperature test is false. -/
def fans_air_cycle (temperature : ℚ) (air_time last_air_cycle_time : ℕ) : Bool × ℕ :=
  if temperature > 80 then (true, last_air_cycle_time)
  else is_air_cycle_active air_time last_air_cycle_time

/-- One pass of the `while (true)` loop of `main` (lines 160-231). -/
def main_cycle (inp : CycleInput) (s : State) : State :=
  if (dht_read inp.pulse s.temp_humidity_sensor).1 = DHT_OK then
    let sensor := (dht_read inp.pulse s.temp_humidity_sensor).2
    let temperature := read_temperature sensor
    let humidity := read_humidity sensor
    let fans_active := fans_air_cycle temperature inp.air_time s.last_air_cycle_time
    let heat_pads_active := decide (temperature < 70)
    let light_active := is_light_cycle_active inp.light_time s.last_light_cycle_time
    let pump_active := is_water_low inp.float_switch_in
    let humidifier_active := decide (humidity < 80)
    { temp_humidity_sensor := sensor
      last_air_cycle_time := fans_active.2
      last_light_cycle_time := light_active.2
      temp_humidity_sensor_fail_cycles := 0
      led := s.led
      fans := fans_active.1
      heat_pads := heat_pads_active
      light := light_active.1
      pump := pump_active
      humidifier := humidifier_active }
  else
    let sensor := (dht_read inp.pulse s.temp_humidity_sensor).2
    let fail_cycles := int8_wrap (s.temp_humidity_sensor_fail_cycles + 1)
    if fail_cycles ≥ 20 then
      { s with
        temp_humidity_sensor := sensor
        temp_humidity_sensor_fail_cycles := fail_cycles
        led := false
        fans := false
        heat_pads := false
        light := false
        pump := false
        humidifier := false }
    else
      { s with
        temp_humidity_sensor := sensor
        temp_humidity_sensor_fail_cycles := fail_cycles }

/-- The main loop run over a finite list of passes. -/
def main_run (inps : List CycleInput) (s : State) : State :=
  inps.foldl (fun st inp => main_cycle inp st) s

/-- The five actuator outputs of a state: fans, heat, light, pump, humidifier. -/
def actuators (s : State) : Bool × Bool × Bool × Bool × Bool :=
  (s.fans, s.heat_pads, s.light, s.pump, s.humidifier)

/-! ## Definitions used to state the claims -/

/-- The frame with the bit at position `k` (0 = first received) inverted. -/
def flip_bit (frame : List ℕ) (k : ℕ) : List ℕ :=
  frame.set (k / 8) (frame.getD (k / 8) 0 ^^^ 2 ^ (7 - k % 8))

/-- A pass whose frame fails the checksum. -/
def fault_input : CycleInput :=
  { pulse := pulsesOf [0x02, 0x58, 0x01, 0x04, 0x5E], air_time := 1000000,
    light_time := 1000000, float_switch_in := true }

/-- A pass whose frame reads 60.0 percent and 26.0 degrees Celsius. -/
def good_input : CycleInput :=
  { pulse := pulsesOf [0x02, 0x58, 0x01, 0x04, 0x5F], air_time := 1000000,
    light_time := 1000000, float_switch_in := false }

/-- A state with every switch on and no recorded failure. -/
def all_on_state : State :=
  { temp_humidity_sensor := ⟨0, 60, 26⟩, last_air_cycle_time := 0, last_light_cycle_time := 0,
    temp_humidity_sensor_fail_cycles := 0, led := true, fans := true, heat_pads := true,
    light := true, pump := true, humidifier := true }

/-- The fail-safe state: every switch off after 20 recorded failures. -/
def fail_safe_state : State :=
  { temp_humidity_sensor := ⟨0, 60, 26⟩, last_air_cycle_time := 0, last_light_cycle_time := 0,
    temp_humidity_sensor_fail_cycles := 20, led := false, fans := false, heat_pads := false,
    light := false, pump := false, humidifier := false }

/-- The behaviour of `is_air_cycle_active` as the specification words it, in
exact microseconds: 15 min = 900000000 us, 2 min = 120000000 us. -/
def air_cycle_spec (now last : ℕ) : Prop :=
  (now - last ≥ 900000000 → is_air_cycle_active now last = (true, now)) ∧
  (now - last < 900000000 → now - last < 120000000 →
    is_air_cycle_active now last = (true, last)) ∧
  (now - last < 900000000 → ¬ now - last < 120000000 →
    is_air_cycle_active now last = (false, last))

instance (now last : ℕ) : Decidable (air_cycle_spec now last) := by
  unfold air_cycle_spec
  infer_instance

/-- The behaviour of `is_light_cycle_active` as the specification words it, in
exact microseconds: 12 h = 43200000000 us, 24 h = 86400000000 us. -/
def light_cycle_spec (now last : ℕ) : Prop :=
  (now - last < 43200000000 → is_light_cycle_active now last = (true, last)) ∧
  (43200000000 ≤ now - last → now - last < 86400000000 →
    is_light_cycle_active now last = (false, last)) ∧
  (86400000000 ≤ now - last → is_light_cycle_active now last = (false, now))

instance (now last : ℕ) : Decidable (light_cycle_spec now last) := by
  unfold light_cycle_spec
  infer_instance

/-- The bit value that the loop of `dht_read` takes from the duration measured
for one bit: the duration truncated to `uint8_t count`, compared with 50. -/
def decoded_bit (pulse : ℕ → ℕ) (bit : ℕ) : ℕ :=
  if pulse bit % 256 > 50 then 1 else 0

/-- A pass whose frame reads 60.0 percent and 30.0 degrees Celsius (86
Fahrenheit), taken 15 min after time 0. -/
def hot_input : CycleInput :=
  { pulse := pulsesOf [0x02, 0x58, 0x01, 0x2C, 0x87], air_time := 900000000,
    light_time := 900000000, float_switch_in := false }

/-- A pass whose frame reads 60.0 percent and 26.0 degrees Celsius (78.8
Fahrenheit), taken 15 min after time 0. -/
def mild_input : CycleInput :=
  { pulse := pulsesOf [0x02, 0x58, 0x01, 0x04, 0x5F], air_time := 900000000,
    light_time := 900000000, float_switch_in := false }

/-- The sentence "the air-cycle timer is updated independently of the
temperature rule" as the specification words it: in a pass whose read succeeds,
an elapsed time of at least 15 min sets `last_air_cycle_time` to the current
time. -/
def air_timer_independent_spec (inp : CycleInput) (s : State) : Prop :=
  (dht_read inp.pulse s.temp_humidity_sensor).1 = DHT_OK →
    inp.air_time - s.last_air_cycle_time ≥ 900000000 →
    (main_cycle inp s).last_air_cycle_time = inp.air_time

/-- The sentence "nothing other than the two timers, the counter and the
outputs is mutated" as the specification words it: a pass leaves the stored
sensor reading and the LED as they were. -/
def cycle_frame_spec (inp : CycleInput) (s : State) : Prop :=
  (main_cycle inp s).temp_humidity_sensor = s.temp_humidity_sensor ∧
    (main_cycle inp s).led = s.led

/-- The clock never runs backwards over a list of passes: `prev` is the value
read last before the list; in each pass `is_air_cycle_active` reads the clock
before `is_light_cycle_active` does. -/
def clock_monotone : ℕ → List CycleInput → Bool
  | _, [] => true
  | prev, inp :: rest =>
    decide (prev ≤ inp.air_time) && decide (inp.air_time ≤ inp.light_time) &&
      clock_monotone inp.light_time rest

/-- The state with every switch on after 19 recorded failures. -/
def nineteen_faults_state : State :=
  { all_on_state with temp_humidity_sensor_fail_cycles := 19 }

/-- The fail-safe state holding another stored reading and with the LED on. -/
def fail_safe_state_relit : State :=
  { fail_safe_state with temp_humidity_sensor := ⟨0, 1, 2⟩, led := true }

instance (inp : CycleInput) (s : State) : Decidable (air_timer_independent_spec inp s) := by
  unfold air_timer_independent_spec
  infer_instance

instance (inp : CycleInput) (s : State) : Decidable (cycle_frame_spec inp s) := by
  unfold cycle_frame_spec
  infer_instance

/-! ## Rounding lemmas -/

theorem floor_le_rne (s : ℚ) : ⌊s⌋ ≤ rne s := by
  unfold rne
  split_ifs <;> omega

theorem rne_le_floor_succ (s : ℚ) : rne s ≤ ⌊s⌋ + 1 := by
  unfold rne
  split_ifs <;> omega

theorem rne_intCast (n : ℤ) : rne (n : ℚ) = n := by
  unfold rne
  simp

theorem le_rne {n : ℤ} {s : ℚ} (h : (n : ℚ) ≤ s) : n ≤ rne s :=
  le_trans (Int.le_floor.mpr h) (floor_le_rne s)

theorem rne_le {n : ℤ} {s : ℚ} (h : s ≤ (n : ℚ)) : rne s ≤ n := by
  rcases eq_or_lt_of_le h with h | h
  · rw [h, rne_intCast]
  · have : ⌊s⌋ < n := Int.floor_lt.mpr h
    have := rne_le_floor_succ s
    omega

theorem rne_mono {s t : ℚ} (h : s ≤ t) : rne s ≤ rne t := by
  have hf : ⌊s⌋ ≤ ⌊t⌋ := Int.floor_mono h
  rcases eq_or_lt_of_le hf with hf | hf
  · unfold rne
    rw [← hf]
    have : s - ⌊s⌋ ≤ t - ⌊s⌋ := by linarith
    split_ifs <;> first | omega | (exfalso; linarith)
  · have h1 := rne_le_floor_succ s
    have h2 := floor_le_rne t
    omega

theorem rne_neg (s : ℚ) : rne (-s) = -rne s := by
  unfold rne
  by_cases hs : (⌊s⌋ : ℚ) = s
  · have h1 : ⌊-s⌋ = -⌊s⌋ := by
      rw [← hs, ← Int.cast_neg, Int.floor_intCast, Int.floor_intCast]
    rw [h1]
    have h2 : s - ⌊s⌋ = 0 := by linarith
    have h3 : -s - ((-⌊s⌋ : ℤ) : ℚ) = 0 := by push_cast; linarith
    rw [h2, h3]
    norm_num
  · have hlt : (⌊s⌋ : ℚ) < s := lt_of_le_of_ne (Int.floor_le s) hs
    have hlt2 : s < ⌊s⌋ + 1 := Int.lt_floor_add_one s
    have h1 : ⌊-s⌋ = -⌊s⌋ - 1 := by
      rw [Int.floor_eq_iff]
      push_cast
      constructor <;> linarith
    rw [h1]
    have h3 : -s - ((-⌊s⌋ - 1 : ℤ) : ℚ) = 1 - (s - ⌊s⌋) := by push_cast; ring
    rw [h3]
    split_ifs <;> first | omega | (exfalso; linarith)

/-- Evaluation of `rne` away from ties. -/
theorem rne_eq_of_abs_lt {s : ℚ} {m : ℤ} (h : |s - m| < 1 / 2) : rne s = m := by
  rw [abs_lt] at h
  apply le_antisymm
  · by_contra hc
    push_neg at hc
    have h1 : m + 1 ≤ rne s := hc
    by_cases hs : s ≤ m
    · have := rne_le hs
      omega
    · push_neg at hs
      have hfl : ⌊s⌋ = m := by
        rw [Int.floor_eq_iff]
        constructor <;> linarith
      unfold rne at h1
      rw [hfl] at h1
      split_ifs at h1 <;> first | omega | linarith
  · by_contra hc
    push_neg at hc
    by_cases hs : (m : ℚ) ≤ s
    · have := le_rne hs
      omega
    · push_neg at hs
      have hfl : ⌊s⌋ = m - 1 := by
        rw [Int.floor_eq_iff]
        push_cast
        constructor <;> linarith
      unfold rne at hc
      rw [hfl] at hc
      push_cast at hc
      split_ifs at hc <;> first | omega | linarith

/-- Evaluation of `rne` at a tie. -/
theorem rne_eq_of_tie {s : ℚ} {m : ℤ} (h : s = m + 1 / 2) :
    rne s = if m % 2 = 0 then m else m + 1 := by
  have hfl : ⌊s⌋ = m := by
    rw [Int.floor_eq_iff]
    constructor <;> linarith
  unfold rne
  rw [hfl]
  have : s - m = 1 / 2 := by linarith
  rw [this]
  norm_num

theorem abs_rne_sub_le (s : ℚ) : |(rne s : ℚ) - s| ≤ 1 / 2 := by
  have h1 := Int.floor_le s
  have h2 := Int.lt_floor_add_one s
  rw [abs_le]
  unfold rne
  split_ifs <;> push_cast <;> constructor <;> linarith

theorem roundNE_neg (p : ℕ) (q : ℚ) : roundNE p (-q) = -roundNE p q := by
  unfold roundNE
  by_cases h : q = 0
  · simp [h]
  · have h2 : -q ≠ 0 := neg_ne_zero.mpr h
    rw [if_neg h, if_neg h2, abs_neg, neg_div, rne_neg]
    push_cast
    ring

theorem roundNE_pos_bounds (p : ℕ) (hp : 1 ≤ p) {q : ℚ} (hq : 0 < q) :
    (2 : ℚ) ^ Int.log 2 q ≤ roundNE p q ∧ roundNE p q ≤ (2 : ℚ) ^ (Int.log 2 q + 1) := by
  have hlo : (2 : ℚ) ^ Int.log 2 q ≤ q := by
    have := Int.zpow_log_le_self (b := 2) (by norm_num) hq
    simpa using this
  have hhi : q < (2 : ℚ) ^ (Int.log 2 q + 1) := by
    have := Int.lt_zpow_succ_log_self (b := 2) (by norm_num) q
    simpa using this
  unfold roundNE
  rw [if_neg (ne_of_gt hq), abs_of_pos hq]
  set L := Int.log 2 q with hL
  set e : ℤ := L - ((p : ℤ) - 1) with he
  have hepos : (0 : ℚ) < (2 : ℚ) ^ e := by positivity
  have hL1 : (2 : ℚ) ^ L = ((2 ^ (p - 1) : ℕ) : ℤ) * (2 : ℚ) ^ e := by
    have : L = ((p - 1 : ℕ) : ℤ) + e := by
      rw [he]; push_cast [Nat.cast_sub hp]; ring
    rw [this, zpow_add₀ (by norm_num), zpow_natCast]
    push_cast
    ring
  have hL2 : (2 : ℚ) ^ (L + 1) = ((2 ^ p : ℕ) : ℤ) * (2 : ℚ) ^ e := by
    have : L + 1 = ((p : ℕ) : ℤ) + e := by
      rw [he]; ring
    rw [this, zpow_add₀ (by norm_num), zpow_natCast]
    push_cast
    ring
  rw [hL1, hL2]
  constructor
  · apply mul_le_mul_of_nonneg_right _ hepos.le
    have : ((2 ^ (p - 1) : ℕ) : ℤ) ≤ rne (q / 2 ^ e) := by
      apply le_rne
      rw [le_div_iff₀ hepos, ← hL1]
      exact hlo
    exact_mod_cast this
  · apply mul_le_mul_of_nonneg_right _ hepos.le
    have : rne (q / 2 ^ e) ≤ ((2 ^ p : ℕ) : ℤ) := by
      apply rne_le
      rw [div_le_iff₀ hepos, ← hL2]
      exact hhi.le
    exact_mod_cast this

theorem roundNE_pos (p : ℕ) (hp : 1 ≤ p) {q : ℚ} (hq : 0 < q) : 0 < roundNE p q :=
  lt_of_lt_of_le (by positivity) (roundNE_pos_bounds p hp hq).1

theorem roundNE_zero (p : ℕ) : roundNE p 0 = 0 := by
  simp [roundNE]

theorem roundNE_mono_pos (p : ℕ) (hp : 1 ≤ p) {a b : ℚ} (ha : 0 < a) (hab : a ≤ b) :
    roundNE p a ≤ roundNE p b := by
  have hb : 0 < b := lt_of_lt_of_le ha hab
  have hlog : Int.log 2 a ≤ Int.log 2 b := Int.log_mono_right ha hab
  rcases eq_or_lt_of_le hlog with hlog | hlog
  · unfold roundNE
    rw [if_neg (ne_of_gt ha), if_neg (ne_of_gt hb), abs_of_pos ha, abs_of_pos hb, hlog]
    have hepos : (0 : ℚ) < (2 : ℚ) ^ (Int.log 2 b - ((p : ℤ) - 1)) := by positivity
    apply mul_le_mul_of_nonneg_right _ hepos.le
    have : rne (a / 2 ^ (Int.log 2 b - ((p : ℤ) - 1))) ≤ rne (b / 2 ^ (Int.log 2 b - ((p : ℤ) - 1))) :=
      rne_mono (div_le_div_of_nonneg_right hab hepos.le)
    exact_mod_cast this
  · have h1 := (roundNE_pos_bounds p hp ha).2
    have h2 := (roundNE_pos_bounds p hp hb).1
    have h3 : (2 : ℚ) ^ (Int.log 2 a + 1) ≤ (2 : ℚ) ^ Int.log 2 b :=
      zpow_le_zpow_right₀ (by norm_num) (by omega)
    linarith

/-- Rounding to nearest is monotone. -/
theorem roundNE_mono (p : ℕ) (hp : 1 ≤ p) {a b : ℚ} (hab : a ≤ b) :
    roundNE p a ≤ roundNE p b := by
  rcases lt_trichotomy a 0 with ha | ha | ha
  · rcases lt_trichotomy b 0 with hb | hb | hb
    · have := roundNE_mono_pos p hp (neg_pos.mpr hb) (neg_le_neg hab)
      rw [roundNE_neg, roundNE_neg] at this
      linarith
    · rw [hb, roundNE_zero]
      have := roundNE_pos p hp (neg_pos.mpr ha)
      rw [roundNE_neg] at this
      linarith
    · have h1 := roundNE_pos p hp (neg_pos.mpr ha)
      rw [roundNE_neg] at h1
      have h2 := roundNE_pos p hp hb
      linarith
  · rw [ha, roundNE_zero]
    rcases eq_or_lt_of_le hab with h | h
    · rw [← h, ha, roundNE_zero]
    · exact (roundNE_pos p hp (ha ▸ h)).le
  · exact roundNE_mono_pos p hp ha hab

/-- Evaluation of `roundNE` on a positive value: `e` is the exponent of the
last significand bit and `m` the rounded significand. -/
theorem roundNE_eval (p : ℕ) (q : ℚ) (e m : ℤ) (hq : 0 < q)
    (hlo : (2 : ℚ) ^ (e + ((p : ℤ) - 1)) ≤ q) (hhi : q < (2 : ℚ) ^ (e + ((p : ℤ) - 1) + 1))
    (hm : rne (q / (2 : ℚ) ^ e) = m) : roundNE p q = m * (2 : ℚ) ^ e := by
  have hlog : Int.log 2 q = e + ((p : ℤ) - 1) := by
    apply le_antisymm
    · have := (Int.lt_zpow_iff_log_lt (b := 2) (by norm_num) hq).mp (by simpa using hhi)
      omega
    · exact (Int.zpow_le_iff_le_log (b := 2) (by norm_num) hq).mp (by simpa using hlo)
  unfold roundNE
  rw [if_neg (ne_of_gt hq), abs_of_pos hq, hlog]
  have : e + ((p : ℤ) - 1) - ((p : ℤ) - 1) = e := by ring
  rw [this, hm]

/-- A value with a significand of at most `p` bits is left unchanged. -/
theorem roundNE_rep (p : ℕ) (m : ℕ) (e : ℤ) (hm : m < 2 ^ p) :
    roundNE p ((m : ℚ) * (2 : ℚ) ^ e) = (m : ℚ) * (2 : ℚ) ^ e := by
  rcases Nat.eq_zero_or_pos m with h0 | hpos
  · subst h0; simp [roundNE]
  have hmq : (0 : ℚ) < m := by exact_mod_cast hpos
  have hepos : (0 : ℚ) < (2 : ℚ) ^ e := by positivity
  have hq : (0 : ℚ) < (m : ℚ) * (2 : ℚ) ^ e := by positivity
  have hlt : Nat.log 2 m < p := by
    by_contra hc
    push_neg at hc
    have h1 : 2 ^ p ≤ 2 ^ Nat.log 2 m := Nat.pow_le_pow_right (by norm_num) hc
    have h2 : 2 ^ Nat.log 2 m ≤ m := Nat.pow_log_le_self 2 (by omega)
    omega
  have hlog : Int.log 2 ((m : ℚ) * (2 : ℚ) ^ e) = (Nat.log 2 m : ℤ) + e := by
    apply le_antisymm
    · have h2 : m < 2 ^ (Nat.log 2 m + 1) := Nat.lt_pow_succ_log_self (by norm_num) m
      have h3 : (m : ℚ) * (2 : ℚ) ^ e < ((2 : ℕ) : ℚ) ^ ((Nat.log 2 m : ℤ) + e + 1) := by
        have h4 : (m : ℚ) < (2 : ℚ) ^ (Nat.log 2 m + 1) := by exact_mod_cast h2
        have : ((Nat.log 2 m : ℤ) + e + 1) = ((Nat.log 2 m + 1 : ℕ) : ℤ) + e := by push_cast; ring
        rw [this, zpow_add₀ (by norm_num), zpow_natCast]
        push_cast
        exact mul_lt_mul_of_pos_right h4 hepos
      have := (Int.lt_zpow_iff_log_lt (b := 2) (by norm_num) hq).mp h3
      omega
    · apply (Int.zpow_le_iff_le_log (b := 2) (by norm_num) hq).mp
      have h2 : 2 ^ Nat.log 2 m ≤ m := Nat.pow_log_le_self 2 (by omega)
      have h4 : (2 : ℚ) ^ Nat.log 2 m ≤ (m : ℚ) := by exact_mod_cast h2
      rw [zpow_add₀ (by norm_num), zpow_natCast]
      push_cast
      exact mul_le_mul_of_nonneg_right h4 hepos.le
  obtain ⟨k, hk⟩ : ∃ k : ℕ, (k : ℤ) = (p : ℤ) - 1 - Nat.log 2 m := ⟨p - 1 - Nat.log 2 m, by omega⟩
  unfold roundNE
  rw [if_neg (ne_of_gt hq), abs_of_pos hq, hlog]
  have he : (Nat.log 2 m : ℤ) + e - ((p : ℤ) - 1) = e - (k : ℤ) := by omega
  rw [he]
  have h2k : (2 : ℚ) ^ (e - (k : ℤ)) = (2 : ℚ) ^ e / (2 : ℚ) ^ k := by
    rw [zpow_sub₀ (by norm_num), zpow_natCast]
  have hkpos : (0 : ℚ) < (2 : ℚ) ^ k := by positivity
  have : (m : ℚ) * (2 : ℚ) ^ e / (2 : ℚ) ^ (e - (k : ℤ)) = ((m * 2 ^ k : ℕ) : ℤ) := by
    rw [h2k]
    push_cast
    field_simp
    ring
  rw [this, rne_intCast, h2k]
  push_cast
  field_simp
  ring

theorem roundNE_natCast (p : ℕ) (n : ℕ) (hn : n < 2 ^ p) : roundNE p (n : ℚ) = n := by
  have := roundNE_rep p n 0 hn
  simpa using this

/-- A dyadic constant `m / 2 ^ k` with `m < 2 ^ p` is representable. -/
theorem roundNE_dyadic (p m k : ℕ) (hm : m < 2 ^ p) :
    roundNE p ((m : ℚ) / 2 ^ k) = (m : ℚ) / 2 ^ k := by
  have := roundNE_rep p m (-(k : ℤ)) hm
  rwa [zpow_neg, zpow_natCast, ← div_eq_mul_inv] at this

theorem roundNE_le_of_le (p : ℕ) (hp : 1 ≤ p) {q F : ℚ} (hF : roundNE p F = F) (h : q ≤ F) :
    roundNE p q ≤ F := by
  have := roundNE_mono p hp h
  rwa [hF] at this

theorem le_roundNE_of_le (p : ℕ) (hp : 1 ≤ p) {q F : ℚ} (hF : roundNE p F = F) (h : F ≤ q) :
    F ≤ roundNE p q := by
  have := roundNE_mono p hp h
  rwa [hF] at this

/-- Rounding to `p` bits moves a value by at most the fraction `2 ^ (-p)` of
its magnitude. -/
theorem roundNE_rel_error (p : ℕ) (q : ℚ) : |roundNE p q - q| ≤ |q| / 2 ^ p := by
  by_cases hq : q = 0
  · subst hq; simp [roundNE]
  have habs : 0 < |q| := abs_pos.mpr hq
  have hlo : (2 : ℚ) ^ Int.log 2 |q| ≤ |q| := by
    have := Int.zpow_log_le_self (b := 2) (by norm_num) habs
    simpa using this
  unfold roundNE
  rw [if_neg hq]
  set e : ℤ := Int.log 2 |q| - ((p : ℤ) - 1) with he
  have hepos : (0 : ℚ) < (2 : ℚ) ^ e := by positivity
  have h1 := abs_rne_sub_le (q / (2 : ℚ) ^ e)
  have h2 : (rne (q / (2 : ℚ) ^ e) : ℚ) * (2 : ℚ) ^ e - q =
      ((rne (q / (2 : ℚ) ^ e) : ℚ) - q / (2 : ℚ) ^ e) * (2 : ℚ) ^ e := by
    field_simp
  rw [h2, abs_mul, abs_of_pos hepos]
  have h3 : (2 : ℚ) ^ Int.log 2 |q| = (2 : ℚ) ^ e * 2 ^ p / 2 := by
    have : Int.log 2 |q| = e + (p : ℤ) - 1 := by rw [he]; ring
    rw [this, zpow_sub₀ (by norm_num), zpow_add₀ (by norm_num), zpow_natCast]
    norm_num
  have hp : (0 : ℚ) < (2 : ℚ) ^ p := by positivity
  rw [le_div_iff₀ hp]
  calc |(rne (q / (2 : ℚ) ^ e) : ℚ) - q / (2 : ℚ) ^ e| * (2 : ℚ) ^ e * 2 ^ p
      ≤ 1 / 2 * (2 : ℚ) ^ e * 2 ^ p := by
        apply mul_le_mul_of_nonneg_right _ hp.le
        exact mul_le_mul_of_nonneg_right h1 hepos.le
    _ = (2 : ℚ) ^ Int.log 2 |q| := by rw [h3]; ring
    _ ≤ |q| := hlo

theorem f32_natCast (n : ℕ) (hn : n < 2 ^ 24) : f32 (n : ℚ) = n := roundNE_natCast 24 n hn

theorem f32_ten : f32 10 = 10 := by
  have := f32_natCast 10 (by norm_num)
  simpa using this

theorem f32_sixty : f32 (((256 * 0x02 + 0x58 : ℕ) : ℚ) / 10) = 60 := by
  have := f32_natCast 60 (by norm_num)
  norm_num at this ⊢
  exact this

theorem f32_twenty_six : f32 (((256 * (0x01 &&& 0x7F) + 0x04 : ℕ) : ℚ) / 10) = 26 := by
  have := f32_natCast 26 (by norm_num)
  have h : (0x01 &&& 0x7F : ℕ) = 1 := by decide
  rw [h]
  norm_num at this ⊢
  exact this

theorem f32_60000000 : f32 60000000 = 60000000 := by
  have := roundNE_rep 24 15000000 2 (by norm_num)
  unfold f32
  norm_num at this ⊢
  exact this

theorem f32_3600000000 : f32 3600000000 = 3600000000 := by
  have := roundNE_rep 24 14062500 8 (by norm_num)
  unfold f32
  norm_num at this ⊢
  exact this

theorem f32_div_ten_eq_zero (k : ℕ) : f32 ((k : ℚ) / 10) = 0 ↔ k = 0 := by
  constructor
  · intro h
    by_contra hk
    have hpos : (0 : ℚ) < (k : ℚ) / 10 := by
      have : (0 : ℚ) < k := by exact_mod_cast Nat.pos_of_ne_zero hk
      positivity
    have := roundNE_pos 24 (by norm_num) hpos
    unfold f32 at h
    linarith
  · rintro rfl
    simp [f32, roundNE]

/-! ## Lemmas on the sensor decoder -/

theorem land_255 (x : ℕ) : x &&& 0xFF = x % 256 := Nat.and_pow_two_sub_one_eq_mod x 8

theorem land_127 (x : ℕ) : x &&& 0x7F = x % 128 := Nat.and_pow_two_sub_one_eq_mod x 7

set_option maxRecDepth 100000 in
theorem land_128_ne_zero : ∀ b < 256, (b &&& 0x80 ≠ 0 ↔ b.testBit 7 = true) := by
  decide

set_option maxRecDepth 1000000 in
theorem xor_two_pow_byte : ∀ b < 256, ∀ j < 8,
    b ^^^ 2 ^ j = b + 2 ^ j ∨ (2 ^ j ≤ b ∧ b ^^^ 2 ^ j = b - 2 ^ j) := by
  decide

theorem two_pow_bit_bounds (j : ℕ) (hj : j < 8) : 1 ≤ 2 ^ j ∧ 2 ^ j ≤ 128 := by
  interval_cases j <;> norm_num

theorem word_eq (first second : ℕ) (h1 : first < 256) (h2 : second < 256) :
    word first second = ((256 * first + second : ℕ) : ℚ) := by
  unfold word
  rw [Nat.shiftLeft_eq, f32_natCast _ (by norm_num; omega)]
  congr 1
  omega

theorem dht_read_bit_inv (pulse : ℕ → ℕ) (data : List ℕ) (bit : ℕ)
    (h : data.length = 5 ∧ ∀ x ∈ data, x < 256) :
    (dht_read_bit pulse data bit).length = 5 ∧ ∀ x ∈ dht_read_bit pulse data bit, x < 256 := by
  obtain ⟨hl, hb⟩ := h
  have hset : ∀ (l : List ℕ) (i v : ℕ), (∀ x ∈ l, x < 256) → v < 256 → ∀ x ∈ l.set i v, x < 256 := by
    intro l i v hl hv x hx
    rcases List.mem_or_eq_of_mem_set hx with h | h
    · exact hl x h
    · omega
  have hget : ∀ (l : List ℕ) (i : ℕ), (∀ x ∈ l, x < 256) → l.getD i 0 < 256 := by
    intro l i hl
    rw [List.getD_eq_getElem?_getD]
    cases hli : l[i]? with
    | none => simp
    | some v => simpa using hl v (List.getElem?_mem hli)
  have h1 := hset data (bit / 8) ((data.getD (bit / 8) 0 * 2) % 256) hb (Nat.mod_lt _ (by norm_num))
  unfold dht_read_bit
  simp only
  split_ifs
  · refine ⟨by simp [hl], ?_⟩
    apply hset _ _ _ h1
    exact Nat.or_lt_two_pow (n := 8) (hget _ _ h1) (by norm_num)
  · exact ⟨by simp [hl], h1⟩

theorem dht_read_frame_inv (pulse : ℕ → ℕ) :
    (dht_read_frame pulse).length = 5 ∧ ∀ x ∈ dht_read_frame pulse, x < 256 := by
  unfold dht_read_frame
  generalize List.range 40 = bits
  have : ∀ (bits : List ℕ) (data : List ℕ), (data.length = 5 ∧ ∀ x ∈ data, x < 256) →
      (bits.foldl (dht_read_bit pulse) data).length = 5 ∧
        ∀ x ∈ bits.foldl (dht_read_bit pulse) data, x < 256 := by
    intro bits
    induction bits with
    | nil => intro data h; simpa using h
    | cons b bs ih => intro data h; exact ih _ (dht_read_bit_inv pulse data b h)
  exact this bits _ ⟨rfl, by decide⟩

theorem dht_read_frame_bytes (pulse : ℕ → ℕ) (b0 b1 b2 b3 b4 : ℕ)
    (h : dht_read_frame pulse = [b0, b1, b2, b3, b4]) :
    b0 < 256 ∧ b1 < 256 ∧ b2 < 256 ∧ b3 < 256 ∧ b4 < 256 := by
  have := (dht_read_frame_inv pulse).2
  rw [h] at this
  simpa using this

theorem dht_read_frame_exists (pulse : ℕ → ℕ) :
    ∃ b0 b1 b2 b3 b4, dht_read_frame pulse = [b0, b1, b2, b3, b4] := by
  have h := (dht_read_frame_inv pulse).1
  rcases hfr : dht_read_frame pulse with _ | ⟨b0, _ | ⟨b1, _ | ⟨b2, _ | ⟨b3, _ | ⟨b4, _ | ⟨b5, t⟩⟩⟩⟩⟩⟩ <;>
    rw [hfr] at h <;> simp at h
  exact ⟨b0, b1, b2, b3, b4, rfl⟩

/-- The decoded temperature before the test against zero. -/
theorem dht_read_decode_eq (dht : dht_reading) (b0 b1 b2 b3 b4 : ℕ)
    (h0 : b0 < 256) (h1 : b1 < 256) (h2 : b2 < 256) (h3 : b3 < 256) :
    dht_read_decode [b0, b1, b2, b3, b4] dht =
      if b4 = (b0 + b1 + b2 + b3) % 256 then
        if 256 * (b2 &&& 0x7F) + b3 = 0 then (DHT_ERR_NAN, dht)
        else (DHT_OK,
          { pin := dht.pin
            humidity := f32 (((256 * b0 + b1 : ℕ) : ℚ) / 10)
            temp_celsius :=
              if b2.testBit 7 then -f32 (((256 * (b2 &&& 0x7F) + b3 : ℕ) : ℚ) / 10)
              else f32 (((256 * (b2 &&& 0x7F) + b3 : ℕ) : ℚ) / 10) })
      else (DHT_ERR_CHECKSUM, dht) := by
  have hm : b2 &&& 0x7F < 256 := by rw [land_127]; omega
  unfold dht_read_decode
  simp only [List.getD_cons_zero, List.getD_cons_succ, land_255, isnan, Bool.false_or,
    word_eq b0 b1 h0 h1, word_eq _ b3 hm h3, f32_ten, land_128_ne_zero b2 h2]
  by_cases hc : b4 = (b0 + b1 + b2 + b3) % 256
  · rw [if_pos hc, if_pos hc]
    by_cases hz : 256 * (b2 &&& 0x7F) + b3 = 0
    · have hz2 := (f32_div_ten_eq_zero (256 * (b2 &&& 0x7F) + b3)).mpr hz
      rw [if_pos hz]
      push_cast at hz2
      by_cases ht : b2.testBit 7 = true <;> simp [ht, hz2]
    · have hz2 := (f32_div_ten_eq_zero (256 * (b2 &&& 0x7F) + b3)).not.mpr hz
      rw [if_neg hz]
      push_cast at hz2
      by_cases ht : b2.testBit 7 = true <;> simp [ht, hz2]
  · rw [if_neg hc, if_neg hc]

theorem dht_read_decode_checksum_iff (data : List ℕ) (dht : dht_reading) :
    (dht_read_decode data dht).1 = DHT_ERR_CHECKSUM ↔
      data.getD 4 0 ≠ (data.getD 0 0 + data.getD 1 0 + data.getD 2 0 + data.getD 3 0) % 256 := by
  unfold dht_read_decode
  rw [land_255]
  by_cases hc : data.getD 4 0 = (data.getD 0 0 + data.getD 1 0 + data.getD 2 0 + data.getD 3 0) % 256
  · rw [if_pos hc]
    simp only [ne_eq, hc, not_true_eq_false, iff_false]
    split_ifs <;> simp [DHT_OK, DHT_ERR_NAN, DHT_ERR_CHECKSUM]
  · rw [if_neg hc]
    exact ⟨fun _ => hc, fun _ => rfl⟩

theorem dht_read_eq (pulse : ℕ → ℕ) (dht : dht_reading) (b0 b1 b2 b3 b4 : ℕ)
    (hframe : dht_read_frame pulse = [b0, b1, b2, b3, b4]) :
    dht_read pulse dht =
      if b4 = (b0 + b1 + b2 + b3) % 256 then
        if 256 * (b2 &&& 0x7F) + b3 = 0 then (DHT_ERR_NAN, dht)
        else (DHT_OK,
          { pin := dht.pin
            humidity := f32 (((256 * b0 + b1 : ℕ) : ℚ) / 10)
            temp_celsius :=
              if b2.testBit 7 then -f32 (((256 * (b2 &&& 0x7F) + b3 : ℕ) : ℚ) / 10)
              else f32 (((256 * (b2 &&& 0x7F) + b3 : ℕ) : ℚ) / 10) })
      else (DHT_ERR_CHECKSUM, dht) := by
  obtain ⟨h0, h1, h2, h3, -⟩ := dht_read_frame_bytes pulse b0 b1 b2 b3 b4 hframe
  unfold dht_read
  rw [hframe, dht_read_decode_eq dht b0 b1 b2 b3 b4 h0 h1 h2 h3]

/-- Every temperature stored by a successful read is a whole number of tenths
rounded to `float`, with either sign. -/
theorem dht_read_ok_temp (pulse : ℕ → ℕ) (dht : dht_reading)
    (hok : (dht_read pulse dht).1 = DHT_OK) :
    ∃ k : ℕ, (dht_read pulse dht).2.temp_celsius = f32 ((k : ℚ) / 10) ∨
      (dht_read pulse dht).2.temp_celsius = -f32 ((k : ℚ) / 10) := by
  obtain ⟨b0, b1, b2, b3, b4, hframe⟩ := dht_read_frame_exists pulse
  rw [dht_read_eq pulse dht b0 b1 b2 b3 b4 hframe] at hok ⊢
  refine ⟨256 * (b2 &&& 0x7F) + b3, ?_⟩
  split_ifs at hok ⊢ <;>
    first
    | exact Or.inl rfl
    | exact Or.inr rfl
    | (exfalso; revert hok; simp [DHT_OK, DHT_ERR_NAN, DHT_ERR_CHECKSUM])

theorem dht_read_status_indep (pulse : ℕ → ℕ) (d1 d2 : dht_reading) :
    (dht_read pulse d1).1 = (dht_read pulse d2).1 := by
  unfold dht_read dht_read_decode
  simp only
  split_ifs <;> rfl

theorem dht_read_values_indep (pulse : ℕ → ℕ) (d1 d2 : dht_reading)
    (hok : (dht_read pulse d1).1 = DHT_OK) :
    (dht_read pulse d1).2.humidity = (dht_read pulse d2).2.humidity ∧
      (dht_read pulse d1).2.temp_celsius = (dht_read pulse d2).2.temp_celsius := by
  unfold dht_read dht_read_decode at *
  simp only at *
  split_ifs at * <;> first | exact ⟨rfl, rfl⟩ | (exfalso; simp [DHT_OK, DHT_ERR_NAN, DHT_ERR_CHECKSUM] at hok)

theorem fault_input_fails (dht : dht_reading) : (dht_read fault_input.pulse dht).1 ≠ DHT_OK := by
  rw [dht_read_eq fault_input.pulse dht 0x02 0x58 0x01 0x04 0x5E (by decide), if_neg (by decide)]
  exact (by decide : DHT_ERR_CHECKSUM ≠ DHT_OK)

theorem good_input_reads (dht : dht_reading) :
    dht_read good_input.pulse dht = (DHT_OK, ⟨dht.pin, 60, 26⟩) := by
  rw [dht_read_eq good_input.pulse dht 0x02 0x58 0x01 0x04 0x5F (by decide)]
  rw [f32_sixty, f32_twenty_six]
  rfl

/-! ## Lemmas on the timers -/

theorem u64_sub_eq (a b : ℕ) (hab : b ≤ a) (ha : a < 2 ^ 64) : u64_sub a b = a - b := by
  unfold u64_sub
  omega

theorem minutes_mono (x y : ℕ) (h : x ≤ y) :
    f32 (f32 (x : ℚ) / f32 60000000) ≤ f32 (f32 (y : ℚ) / f32 60000000) := by
  rw [f32_60000000]
  unfold f32
  apply roundNE_mono 24 (by norm_num)
  apply div_le_div_of_nonneg_right _ (by norm_num)
  exact roundNE_mono 24 (by norm_num) (by exact_mod_cast h)

theorem hours_mono (x y : ℕ) (h : x ≤ y) :
    f32 (f32 (x : ℚ) / f32 3600000000) ≤ f32 (f32 (y : ℚ) / f32 3600000000) := by
  rw [f32_3600000000]
  unfold f32
  apply roundNE_mono 24 (by norm_num)
  apply div_le_div_of_nonneg_right _ (by norm_num)
  exact roundNE_mono 24 (by norm_num) (by exact_mod_cast h)

theorem minutes_at_899999968 : f32 (f32 ((899999968 : ℕ) : ℚ) / f32 60000000) = 15 := by
  have h1 : f32 ((899999968 : ℕ) : ℚ) = 900000000 := by
    unfold f32
    rw [roundNE_eval 24 _ 6 14062500 (by norm_num) (by norm_num) (by norm_num)
      ((rne_eq_of_tie (m := 14062499) (by norm_num)).trans (by norm_num))]
    norm_num
  rw [h1, f32_60000000]
  have := roundNE_dyadic 24 15 0 (by norm_num)
  unfold f32
  norm_num at this ⊢
  exact this

theorem minutes_at_899999967 : f32 (f32 ((899999967 : ℕ) : ℚ) / f32 60000000) < 15 := by
  have h1 : f32 ((899999967 : ℕ) : ℚ) = 899999936 := by
    unfold f32
    rw [roundNE_eval 24 _ 6 14062499 (by norm_num) (by norm_num) (by norm_num)
      (rne_eq_of_abs_lt (by norm_num [abs_lt]))]
    norm_num
  rw [h1, f32_60000000]
  have hF := roundNE_dyadic 24 15728639 20 (by norm_num)
  have := roundNE_le_of_le 24 (by norm_num) hF
    (show (899999936 : ℚ) / 60000000 ≤ (15728639 : ℚ) / 2 ^ 20 by norm_num)
  unfold f32
  refine lt_of_le_of_lt this ?_
  norm_num

theorem minutes_at_119999996 : f32 (f32 ((119999996 : ℕ) : ℚ) / f32 60000000) = 2 := by
  have h1 : f32 ((119999996 : ℕ) : ℚ) = 120000000 := by
    unfold f32
    rw [roundNE_eval 24 _ 3 15000000 (by norm_num) (by norm_num) (by norm_num)
      ((rne_eq_of_tie (m := 14999999) (by norm_num)).trans (by norm_num))]
    norm_num
  rw [h1, f32_60000000]
  have := roundNE_dyadic 24 2 0 (by norm_num)
  unfold f32
  norm_num at this ⊢
  exact this

theorem minutes_at_119999995 : f32 (f32 ((119999995 : ℕ) : ℚ) / f32 60000000) < 2 := by
  have h1 : f32 ((119999995 : ℕ) : ℚ) = 119999992 := by
    unfold f32
    rw [roundNE_eval 24 _ 3 14999999 (by norm_num) (by norm_num) (by norm_num)
      (rne_eq_of_abs_lt (by norm_num [abs_lt]))]
    norm_num
  rw [h1, f32_60000000]
  have hF := roundNE_dyadic 24 16777215 23 (by norm_num)
  have := roundNE_le_of_le 24 (by norm_num) hF
    (show (119999992 : ℚ) / 60000000 ≤ (16777215 : ℚ) / 2 ^ 23 by norm_num)
  unfold f32
  refine lt_of_le_of_lt this ?_
  norm_num

/-- The air cycle in exact microseconds. -/
theorem is_air_cycle_active_eq (now last : ℕ) (hle : last ≤ now) (hnow : now < 2 ^ 64) :
    is_air_cycle_active now last =
      if 899999968 ≤ now - last then (true, now)
      else if now - last < 119999996 then (true, last)
      else (false, last) := by
  unfold is_air_cycle_active minutes_since_last_air_cycle
  rw [u64_sub_eq now last hle hnow]
  by_cases h1 : 899999968 ≤ now - last
  · have := minutes_mono _ _ h1
    rw [minutes_at_899999968] at this
    rw [if_pos this, if_pos h1]
  · have := minutes_mono _ _ (by omega : now - last ≤ 899999967)
    have h15 := lt_of_le_of_lt this minutes_at_899999967
    rw [if_neg (not_le.mpr h15), if_neg h1]
    by_cases h2 : now - last < 119999996
    · have := minutes_mono _ _ (by omega : now - last ≤ 119999995)
      have h2m := lt_of_le_of_lt this minutes_at_119999995
      rw [if_pos h2m, if_pos h2]
    · have := minutes_mono _ _ (by omega : 119999996 ≤ now - last)
      rw [minutes_at_119999996] at this
      rw [if_neg (not_lt.mpr this), if_neg h2]

theorem hours_at_43199997953 : f32 (f32 ((43199997953 : ℕ) : ℚ) / f32 3600000000) = 12 := by
  have h1 : f32 ((43199997953 : ℕ) : ℚ) = 43200000000 := by
    unfold f32
    rw [roundNE_eval 24 _ 12 10546875 (by norm_num) (by norm_num) (by norm_num)
      (rne_eq_of_abs_lt (by norm_num [abs_lt]))]
    norm_num
  rw [h1, f32_3600000000]
  have := roundNE_dyadic 24 12 0 (by norm_num)
  unfold f32
  norm_num at this ⊢
  exact this

theorem hours_at_43199997952 : f32 (f32 ((43199997952 : ℕ) : ℚ) / f32 3600000000) < 12 := by
  have h1 : f32 ((43199997952 : ℕ) : ℚ) = 43199995904 := by
    unfold f32
    rw [roundNE_eval 24 _ 12 10546874 (by norm_num) (by norm_num) (by norm_num)
      ((rne_eq_of_tie (m := 10546874) (by norm_num)).trans (by norm_num))]
    norm_num
  rw [h1, f32_3600000000]
  have hF := roundNE_dyadic 24 12582911 20 (by norm_num)
  have := roundNE_le_of_le 24 (by norm_num) hF
    (show (43199995904 : ℚ) / 3600000000 ≤ (12582911 : ℚ) / 2 ^ 20 by norm_num)
  unfold f32
  refine lt_of_le_of_lt this ?_
  norm_num

theorem hours_at_86399995905 : f32 (f32 ((86399995905 : ℕ) : ℚ) / f32 3600000000) = 24 := by
  have h1 : f32 ((86399995905 : ℕ) : ℚ) = 86400000000 := by
    unfold f32
    rw [roundNE_eval 24 _ 13 10546875 (by norm_num) (by norm_num) (by norm_num)
      (rne_eq_of_abs_lt (by norm_num [abs_lt]))]
    norm_num
  rw [h1, f32_3600000000]
  have := roundNE_dyadic 24 24 0 (by norm_num)
  unfold f32
  norm_num at this ⊢
  exact this

theorem hours_at_86399995904 : f32 (f32 ((86399995904 : ℕ) : ℚ) / f32 3600000000) < 24 := by
  have h1 : f32 ((86399995904 : ℕ) : ℚ) = 86399991808 := by
    unfold f32
    rw [roundNE_eval 24 _ 13 10546874 (by norm_num) (by norm_num) (by norm_num)
      ((rne_eq_of_tie (m := 10546874) (by norm_num)).trans (by norm_num))]
    norm_num
  rw [h1, f32_3600000000]
  have hF := roundNE_dyadic 24 12582911 19 (by norm_num)
  have := roundNE_le_of_le 24 (by norm_num) hF
    (show (86399991808 : ℚ) / 3600000000 ≤ (12582911 : ℚ) / 2 ^ 19 by norm_num)
  unfold f32
  refine lt_of_le_of_lt this ?_
  norm_num

/-- The light cycle in exact microseconds. -/
theorem is_light_cycle_active_eq (now last : ℕ) (hle : last ≤ now) (hnow : now < 2 ^ 64) :
    is_light_cycle_active now last =
      if now - last ≤ 43199997952 then (true, last)
      else if 86399995905 ≤ now - last then (false, now)
      else (false, last) := by
  unfold is_light_cycle_active hours_since_last_light_cycle
  rw [u64_sub_eq now last hle hnow]
  by_cases h1 : now - last ≤ 43199997952
  · have := hours_mono _ _ h1
    have h12 := lt_of_le_of_lt this hours_at_43199997952
    rw [if_pos h12, if_pos h1]
  · have := hours_mono _ _ (by omega : 43199997953 ≤ now - last)
    rw [hours_at_43199997953] at this
    rw [if_neg (not_lt.mpr this), if_neg h1]
    by_cases h2 : 86399995905 ≤ now - last
    · have := hours_mono _ _ h2
      rw [hours_at_86399995905] at this
      rw [if_pos this, if_pos h2]
    · have := hours_mono _ _ (by omega : now - last ≤ 86399995904)
      have h24 := lt_of_le_of_lt this hours_at_86399995904
      rw [if_neg (not_le.mpr h24), if_neg h2]

/-! ## Lemmas on the controller cycle -/

theorem read_temperature_lower (r : dht_reading) (a b : ℚ) (ha : a ≤ r.temp_celsius)
    (h9 : roundNE 53 (a * 9) = a * 9) (hb : roundNE 53 b = b) (h5 : b ≤ a * 9 / 5)
    (hs : roundNE 53 (b + 32) = b + 32) (hf : roundNE 24 (b + 32) = b + 32) :
    b + 32 ≤ read_temperature r := by
  unfold read_temperature f32 f64
  have h1 : a * 9 ≤ roundNE 53 (r.temp_celsius * 9) :=
    le_roundNE_of_le 53 (by norm_num) h9 (by linarith)
  have h2 : b ≤ roundNE 53 (roundNE 53 (r.temp_celsius * 9) / 5) :=
    le_roundNE_of_le 53 (by norm_num) hb (by linarith)
  have h3 : b + 32 ≤ roundNE 53 (roundNE 53 (roundNE 53 (r.temp_celsius * 9) / 5) + 32) :=
    le_roundNE_of_le 53 (by norm_num) hs (by linarith)
  exact le_roundNE_of_le 24 (by norm_num) hf h3

theorem read_temperature_upper (r : dht_reading) (a b : ℚ) (ha : r.temp_celsius ≤ a)
    (h9 : roundNE 53 (a * 9) = a * 9) (hb : roundNE 53 b = b) (h5 : a * 9 / 5 ≤ b)
    (hs : roundNE 53 (b + 32) = b + 32) (hf : roundNE 24 (b + 32) = b + 32) :
    read_temperature r ≤ b + 32 := by
  unfold read_temperature f32 f64
  have h1 : roundNE 53 (r.temp_celsius * 9) ≤ a * 9 :=
    roundNE_le_of_le 53 (by norm_num) h9 (by linarith)
  have h2 : roundNE 53 (roundNE 53 (r.temp_celsius * 9) / 5) ≤ b :=
    roundNE_le_of_le 53 (by norm_num) hb (by linarith)
  have h3 : roundNE 53 (roundNE 53 (roundNE 53 (r.temp_celsius * 9) / 5) + 32) ≤ b + 32 :=
    roundNE_le_of_le 53 (by norm_num) hs (by linarith)
  exact roundNE_le_of_le 24 (by norm_num) hf h3

/-- On every temperature that `dht_read` can store (a whole number of tenths,
rounded to `float`, with either sign) the two threshold tests of the main loop
give the same answers as exact arithmetic on the stored value. -/
theorem read_temperature_thresholds (r : dht_reading) (k : ℕ)
    (hr : r.temp_celsius = f32 ((k : ℚ) / 10) ∨ r.temp_celsius = -f32 ((k : ℚ) / 10)) :
    (read_temperature r > 80 ↔ r.temp_celsius * 9 / 5 + 32 > 80) ∧
      (read_temperature r < 70 ↔ r.temp_celsius * 9 / 5 + 32 < 70) := by
  have hk0 : (0 : ℚ) ≤ f32 ((k : ℚ) / 10) := by
    have := roundNE_mono 24 (by norm_num) (show (0 : ℚ) ≤ (k : ℚ) / 10 by positivity)
    rwa [roundNE_zero] at this
  have r0 : roundNE 53 ((0 : ℚ) * 9) = 0 * 9 := by norm_num [roundNE_zero]
  have r0b : roundNE 53 (0 : ℚ) = 0 := roundNE_zero 53
  have r32 : roundNE 53 ((0 : ℚ) + 32) = 0 + 32 := by
    have := roundNE_dyadic 53 32 0 (by norm_num)
    norm_num at this ⊢
    exact this
  have r32f : roundNE 24 ((0 : ℚ) + 32) = 0 + 32 := by
    have := roundNE_dyadic 24 32 0 (by norm_num)
    norm_num at this ⊢
    exact this
  rcases hr with hr | hr
  · -- non-negative temperature
    constructor
    · by_cases hk : 267 ≤ k
      · have hq : (26.6875 : ℚ) ≤ (k : ℚ) / 10 := by
          have : (267 : ℚ) ≤ k := by exact_mod_cast hk
          linarith
        have hc : (26.6875 : ℚ) ≤ r.temp_celsius := by
          rw [hr]
          refine le_roundNE_of_le 24 (by norm_num) ?_ hq
          have := roundNE_dyadic 24 427 4 (by norm_num)
          norm_num at this ⊢
          exact this
        have hT := read_temperature_lower r 26.6875 48.03125 hc
          (by have := roundNE_dyadic 53 3843 4 (by norm_num); norm_num at this ⊢; exact this)
          (by have := roundNE_dyadic 53 1537 5 (by norm_num); norm_num at this ⊢; exact this)
          (by norm_num)
          (by have := roundNE_dyadic 53 2561 5 (by norm_num); norm_num at this ⊢; exact this)
          (by have := roundNE_dyadic 24 2561 5 (by norm_num); norm_num at this ⊢; exact this)
        constructor
        · intro _; linarith
        · intro _; linarith
      · push_neg at hk
        have hq : (k : ℚ) / 10 ≤ 26.625 := by
          have : (k : ℚ) ≤ 266 := by exact_mod_cast (by omega : k ≤ 266)
          linarith
        have hc : r.temp_celsius ≤ 26.625 := by
          rw [hr]
          refine roundNE_le_of_le 24 (by norm_num) ?_ hq
          have := roundNE_dyadic 24 213 3 (by norm_num)
          norm_num at this ⊢
          exact this
        have hT := read_temperature_upper r 26.625 47.9375 hc
          (by have := roundNE_dyadic 53 1917 3 (by norm_num); norm_num at this ⊢; exact this)
          (by have := roundNE_dyadic 53 767 4 (by norm_num); norm_num at this ⊢; exact this)
          (by norm_num)
          (by have := roundNE_dyadic 53 1279 4 (by norm_num); norm_num at this ⊢; exact this)
          (by have := roundNE_dyadic 24 1279 4 (by norm_num); norm_num at this ⊢; exact this)
        constructor
        · intro h; linarith
        · intro h; linarith
    · by_cases hk : 212 ≤ k
      · have hq : (21.1875 : ℚ) ≤ (k : ℚ) / 10 := by
          have : (212 : ℚ) ≤ k := by exact_mod_cast hk
          linarith
        have hc : (21.1875 : ℚ) ≤ r.temp_celsius := by
          rw [hr]
          refine le_roundNE_of_le 24 (by norm_num) ?_ hq
          have := roundNE_dyadic 24 339 4 (by norm_num)
          norm_num at this ⊢
          exact this
        have hT := read_temperature_lower r 21.1875 38.125 hc
          (by have := roundNE_dyadic 53 3051 4 (by norm_num); norm_num at this ⊢; exact this)
          (by have := roundNE_dyadic 53 305 3 (by norm_num); norm_num at this ⊢; exact this)
          (by norm_num)
          (by have := roundNE_dyadic 53 561 3 (by norm_num); norm_num at this ⊢; exact this)
          (by have := roundNE_dyadic 24 561 3 (by norm_num); norm_num at this ⊢; exact this)
        constructor
        · intro h; linarith
        · intro h; linarith
      · push_neg at hk
        have hq : (k : ℚ) / 10 ≤ 21.109375 := by
          have : (k : ℚ) ≤ 211 := by exact_mod_cast (by omega : k ≤ 211)
          linarith
        have hc : r.temp_celsius ≤ 21.109375 := by
          rw [hr]
          refine roundNE_le_of_le 24 (by norm_num) ?_ hq
          have := roundNE_dyadic 24 1351 6 (by norm_num)
          norm_num at this ⊢
          exact this
        have hT := read_temperature_upper r 21.109375 37.998046875 hc
          (by have := roundNE_dyadic 53 12159 6 (by norm_num); norm_num at this ⊢; exact this)
          (by have := roundNE_dyadic 53 19455 9 (by norm_num); norm_num at this ⊢; exact this)
          (by norm_num)
          (by have := roundNE_dyadic 53 35839 9 (by norm_num); norm_num at this ⊢; exact this)
          (by have := roundNE_dyadic 24 35839 9 (by norm_num); norm_num at this ⊢; exact this)
        constructor
        · intro _; linarith
        · intro _; linarith
  · -- negative temperature
    have hc : r.temp_celsius ≤ 0 := by rw [hr]; linarith
    have hT := read_temperature_upper r 0 0 hc r0 r0b (by norm_num) r32 r32f
    constructor
    · constructor
      · intro h; linarith
      · intro h; linarith
    · constructor
      · intro _; linarith
      · intro _; linarith

theorem fans_air_cycle_fst (t : ℚ) (a l : ℕ) :
    (fans_air_cycle t a l).1 = (decide (t > 80) || (is_air_cycle_active a l).1) := by
  unfold fans_air_cycle
  split_ifs with h <;> simp [h]

theorem main_cycle_fault (inp : CycleInput) (s : State)
    (h : (dht_read inp.pulse s.temp_humidity_sensor).1 ≠ DHT_OK) :
    (main_cycle inp s).temp_humidity_sensor_fail_cycles =
        int8_wrap (s.temp_humidity_sensor_fail_cycles + 1) ∧
      actuators (main_cycle inp s) =
        if int8_wrap (s.temp_humidity_sensor_fail_cycles + 1) ≥ 20 then
          (false, false, false, false, false)
        else actuators s := by
  unfold main_cycle
  rw [if_neg h]
  simp only
  split_ifs <;> simp [actuators]

theorem main_cycle_fault_sensor (inp : CycleInput) (s : State)
    (h : (dht_read inp.pulse s.temp_humidity_sensor).1 ≠ DHT_OK) :
    (main_cycle inp s).temp_humidity_sensor = s.temp_humidity_sensor := by
  have h2 : (dht_read inp.pulse s.temp_humidity_sensor).2 = s.temp_humidity_sensor := by
    revert h
    unfold dht_read dht_read_decode
    simp only
    split_ifs <;> simp [DHT_OK]
  unfold main_cycle
  rw [if_neg h]
  simp only
  split_ifs <;> simp [h2]

theorem main_run_append (l1 l2 : List CycleInput) (s : State) :
    main_run (l1 ++ l2) s = main_run l2 (main_run l1 s) := by
  unfold main_run
  rw [List.foldl_append]

theorem main_run_cons (inp : CycleInput) (l : List CycleInput) (s : State) :
    main_run (inp :: l) s = main_run l (main_cycle inp s) := rfl

/-- A run of faults starting below the threshold: the count grows by one per
pass and the outputs stay as they were while it is below 20. -/
theorem main_run_faults_count (inps : List CycleInput) :
    ∀ s : State, (∀ inp ∈ inps, ∀ dht, (dht_read inp.pulse dht).1 ≠ DHT_OK) →
      0 ≤ s.temp_humidity_sensor_fail_cycles →
      s.temp_humidity_sensor_fail_cycles + inps.length ≤ 19 →
      (main_run inps s).temp_humidity_sensor_fail_cycles =
          s.temp_humidity_sensor_fail_cycles + inps.length ∧
        actuators (main_run inps s) = actuators s := by
  induction inps with
  | nil => intro s _ _ _; simp [main_run]
  | cons inp l ih =>
    intro s hf h0 hlen
    have hfault := main_cycle_fault inp s (hf inp (List.mem_cons_self _ _) _)
    have hw : int8_wrap (s.temp_humidity_sensor_fail_cycles + 1) =
        s.temp_humidity_sensor_fail_cycles + 1 := by
      simp only [List.length_cons, Nat.cast_add, Nat.cast_one] at hlen
      unfold int8_wrap
      omega
    rw [hw] at hfault
    simp only [List.length_cons, Nat.cast_add, Nat.cast_one] at hlen
    have := ih (main_cycle inp s) (fun i hi => hf i (List.mem_cons_of_mem _ hi))
      (by rw [hfault.1]; omega) (by rw [hfault.1]; omega)
    rw [main_run_cons, this.1, this.2, hfault.1, hfault.2, if_neg (by omega)]
    simp only [List.length_cons, Nat.cast_add, Nat.cast_one]
    exact ⟨by ring, trivial⟩

theorem main_run_faults_off (inps : List CycleInput) :
    ∀ s : State, (∀ inp ∈ inps, ∀ dht, (dht_read inp.pulse dht).1 ≠ DHT_OK) →
      actuators s = (false, false, false, false, false) →
      actuators (main_run inps s) = (false, false, false, false, false) := by
  induction inps with
  | nil => intro s _ h; simpa [main_run] using h
  | cons inp l ih =>
    intro s hf hoff
    have hfault := main_cycle_fault inp s (hf inp (List.mem_cons_self _ _) _)
    rw [main_run_cons]
    apply ih _ (fun i hi => hf i (List.mem_cons_of_mem _ hi))
    rw [hfault.2, hoff]
    simp

/-- The pass `good_input` from a state whose two timers are 0. -/
theorem good_input_cycle (s : State) (hair : s.last_air_cycle_time = 0)
    (hlight : s.last_light_cycle_time = 0) :
    main_cycle good_input s =
      { temp_humidity_sensor := ⟨s.temp_humidity_sensor.pin, 60, 26⟩
        last_air_cycle_time := 0
        last_light_cycle_time := 0
        temp_humidity_sensor_fail_cycles := 0
        led := s.led
        fans := true
        heat_pads := false
        light := true
        pump := true
        humidifier := true } := by
  have hr := good_input_reads s.temp_humidity_sensor
  have ha : is_air_cycle_active good_input.air_time 0 = (true, 0) :=
    is_air_cycle_active_eq 1000000 0 (by norm_num) (by norm_num)
  have hl : is_light_cycle_active good_input.light_time 0 = (true, 0) :=
    is_light_cycle_active_eq 1000000 0 (by norm_num) (by norm_num)
  have hk : (⟨s.temp_humidity_sensor.pin, 60, 26⟩ : dht_reading).temp_celsius =
      f32 (((260 : ℕ) : ℚ) / 10) ∨ (⟨s.temp_humidity_sensor.pin, 60, 26⟩ : dht_reading).temp_celsius =
      -f32 (((260 : ℕ) : ℚ) / 10) := by
    left
    have := f32_natCast 26 (by norm_num)
    norm_num at this ⊢
    exact this.symm
  obtain ⟨h80, h70⟩ := read_temperature_thresholds _ 260 hk
  have h80f : ¬ read_temperature ⟨s.temp_humidity_sensor.pin, 60, 26⟩ > 80 := by
    rw [h80]; norm_num
  have h70f : ¬ read_temperature ⟨s.temp_humidity_sensor.pin, 60, 26⟩ < 70 := by
    rw [h70]; norm_num
  unfold main_cycle
  rw [hr, if_pos rfl]
  simp only [fans_air_cycle, if_neg h80f, hair, hlight, ha, hl, read_humidity, is_water_low,
    decide_eq_false h70f]
  norm_num [good_input]

/-! ## Claims -/

/-- C1: for every frame `b0..b4` assembled by `dht_read` whose checksum is
correct and whose temperature magnitude `256 * (b2 & 0x7F) + b3` is non-zero,
`dht_read` returns `DHT_OK` and stores humidity `(256 * b0 + b1) / 10` and
temperature `(256 * (b2 & 0x7F) + b3) / 10`, negated exactly when the top bit
of `b2` is set. The quotients are the `float` quotients of the code: the
binary32 value nearest to the exact quotient, within relative error `2 ^ (-24)`
of it. -/
theorem dht_read_valid_frame (pulse : ℕ → ℕ) (dht : dht_reading) (b0 b1 b2 b3 b4 : ℕ)
    (hframe : dht_read_frame pulse = [b0, b1, b2, b3, b4])
    (hsum : b4 = (b0 + b1 + b2 + b3) % 256)
    (hmag : 256 * (b2 &&& 0x7F) + b3 ≠ 0) :
    dht_read pulse dht = (DHT_OK,
      { pin := dht.pin
        humidity := f32 (((256 * b0 + b1 : ℕ) : ℚ) / 10)
        temp_celsius :=
          if b2.testBit 7 then -f32 (((256 * (b2 &&& 0x7F) + b3 : ℕ) : ℚ) / 10)
          else f32 (((256 * (b2 &&& 0x7F) + b3 : ℕ) : ℚ) / 10) }) ∧
    |f32 (((256 * b0 + b1 : ℕ) : ℚ) / 10) - ((256 * b0 + b1 : ℕ) : ℚ) / 10| ≤
      ((256 * b0 + b1 : ℕ) : ℚ) / 10 / 2 ^ 24 ∧
    |f32 (((256 * (b2 &&& 0x7F) + b3 : ℕ) : ℚ) / 10) - ((256 * (b2 &&& 0x7F) + b3 : ℕ) : ℚ) / 10| ≤
      ((256 * (b2 &&& 0x7F) + b3 : ℕ) : ℚ) / 10 / 2 ^ 24 := by
  refine ⟨?_, ?_, ?_⟩
  · rw [dht_read_eq pulse dht b0 b1 b2 b3 b4 hframe, if_pos hsum, if_neg hmag]
  · have := roundNE_rel_error 24 (((256 * b0 + b1 : ℕ) : ℚ) / 10)
    rwa [abs_of_nonneg (show (0 : ℚ) ≤ ((256 * b0 + b1 : ℕ) : ℚ) / 10 by positivity)] at this
  · have := roundNE_rel_error 24 (((256 * (b2 &&& 0x7F) + b3 : ℕ) : ℚ) / 10)
    rwa [abs_of_nonneg
      (show (0 : ℚ) ≤ ((256 * (b2 &&& 0x7F) + b3 : ℕ) : ℚ) / 10 by positivity)] at this

/-- Witness for C1: bytes `02 58 01 04 5F` give humidity 60.0 and temperature
26.0; bytes `02 58 81 04 DF` give temperature -26.0. -/
theorem dht_read_valid_frame_witness :
    (dht_read_frame (pulsesOf [0x02, 0x58, 0x01, 0x04, 0x5F]) = [0x02, 0x58, 0x01, 0x04, 0x5F] ∧
      dht_read (pulsesOf [0x02, 0x58, 0x01, 0x04, 0x5F]) ⟨0, 0, 0⟩ = (DHT_OK, ⟨0, 60, 26⟩)) ∧
    (dht_read_frame (pulsesOf [0x02, 0x58, 0x81, 0x04, 0xDF]) = [0x02, 0x58, 0x81, 0x04, 0xDF] ∧
      dht_read (pulsesOf [0x02, 0x58, 0x81, 0x04, 0xDF]) ⟨0, 0, 0⟩ = (DHT_OK, ⟨0, 60, -26⟩)) := by
  refine ⟨⟨by decide, ?_⟩, ⟨by decide, ?_⟩⟩
  · rw [(dht_read_valid_frame (pulsesOf [0x02, 0x58, 0x01, 0x04, 0x5F]) ⟨0, 0, 0⟩
      0x02 0x58 0x01 0x04 0x5F (by decide) (by decide) (by decide)).1]
    rw [f32_sixty, f32_twenty_six]
    rfl
  · rw [(dht_read_valid_frame (pulsesOf [0x02, 0x58, 0x81, 0x04, 0xDF]) ⟨0, 0, 0⟩
      0x02 0x58 0x81 0x04 0xDF (by decide) (by decide) (by decide)).1]
    have h : (0x81 &&& 0x7F : ℕ) = (0x01 &&& 0x7F : ℕ) := by decide
    rw [h, f32_sixty, f32_twenty_six]
    rfl

/-- C2: for every assembled frame `b0..b4`, `dht_read` returns
`DHT_ERR_CHECKSUM` if and only if `b4` differs from `(b0 + b1 + b2 + b3) mod 256`. -/
theorem dht_read_checksum_fault_iff (pulse : ℕ → ℕ) (dht : dht_reading) (b0 b1 b2 b3 b4 : ℕ)
    (hframe : dht_read_frame pulse = [b0, b1, b2, b3, b4]) :
    (dht_read pulse dht).1 = DHT_ERR_CHECKSUM ↔ b4 ≠ (b0 + b1 + b2 + b3) % 256 := by
  unfold dht_read
  rw [dht_read_decode_checksum_iff, hframe]
  rfl

/-- Witness for C2: the frame `02 58 01 04 5E` has a wrong checksum byte. -/
theorem dht_read_checksum_fault_iff_witness :
    dht_read_frame (pulsesOf [0x02, 0x58, 0x01, 0x04, 0x5E]) = [0x02, 0x58, 0x01, 0x04, 0x5E] ∧
    ((dht_read (pulsesOf [0x02, 0x58, 0x01, 0x04, 0x5E]) ⟨0, 0, 0⟩).1 = DHT_ERR_CHECKSUM ↔
      0x5E ≠ (0x02 + 0x58 + 0x01 + 0x04) % 256) :=
  ⟨by decide, dht_read_checksum_fault_iff (pulsesOf [0x02, 0x58, 0x01, 0x04, 0x5E]) ⟨0, 0, 0⟩
    0x02 0x58 0x01 0x04 0x5E (by decide)⟩

/-- C3: for every assembled frame with a valid checksum and every bit position
`k < 40`, a read that assembles the frame with that one bit inverted returns
`DHT_ERR_CHECKSUM`, never `DHT_OK`. -/
theorem dht_read_single_bit_flip (pulse pulse2 : ℕ → ℕ) (dht : dht_reading)
    (b0 b1 b2 b3 b4 k : ℕ)
    (hframe : dht_read_frame pulse = [b0, b1, b2, b3, b4])
    (hsum : b4 = (b0 + b1 + b2 + b3) % 256)
    (hk : k < 40)
    (hflip : dht_read_frame pulse2 = flip_bit (dht_read_frame pulse) k) :
    (dht_read pulse2 dht).1 = DHT_ERR_CHECKSUM ∧ (dht_read pulse2 dht).1 ≠ DHT_OK := by
  obtain ⟨h0, h1, h2, h3, h4⟩ := dht_read_frame_bytes pulse b0 b1 b2 b3 b4 hframe
  have hj : 7 - k % 8 < 8 := by omega
  obtain ⟨hd1, hd2⟩ := two_pow_bit_bounds _ hj
  have hx0 := xor_two_pow_byte b0 h0 _ hj
  have hx1 := xor_two_pow_byte b1 h1 _ hj
  have hx2 := xor_two_pow_byte b2 h2 _ hj
  have hx3 := xor_two_pow_byte b3 h3 _ hj
  have hx4 := xor_two_pow_byte b4 h4 _ hj
  have hfault : (dht_read pulse2 dht).1 = DHT_ERR_CHECKSUM := by
    unfold dht_read
    rw [dht_read_decode_checksum_iff, hflip, hframe]
    unfold flip_bit
    generalize 2 ^ (7 - k % 8) = d at *
    obtain ⟨i, hi⟩ : ∃ i, k / 8 = i := ⟨_, rfl⟩
    have hi5 : i < 5 := by omega
    rw [hi]
    interval_cases i <;>
      simp only [List.set_cons_zero, List.set_cons_succ, List.getD_cons_zero,
        List.getD_cons_succ] <;> omega
  exact ⟨hfault, by rw [hfault]; decide⟩

/-- Witness for C3: inverting bit 37 (in the checksum byte) of `02 58 01 04 5F`. -/
theorem dht_read_single_bit_flip_witness :
    dht_read_frame (pulsesOf [0x02, 0x58, 0x01, 0x04, 0x5F]) = [0x02, 0x58, 0x01, 0x04, 0x5F] ∧
    (0x5F = (0x02 + 0x58 + 0x01 + 0x04) % 256) ∧ 37 < 40 ∧
    dht_read_frame (pulsesOf [0x02, 0x58, 0x01, 0x04, 0x5B]) =
      flip_bit (dht_read_frame (pulsesOf [0x02, 0x58, 0x01, 0x04, 0x5F])) 37 ∧
    (dht_read (pulsesOf [0x02, 0x58, 0x01, 0x04, 0x5B]) ⟨0, 0, 0⟩).1 = DHT_ERR_CHECKSUM ∧
    (dht_read (pulsesOf [0x02, 0x58, 0x01, 0x04, 0x5B]) ⟨0, 0, 0⟩).1 ≠ DHT_OK :=
  ⟨by decide, by decide, by decide, by decide,
    dht_read_single_bit_flip (pulsesOf [0x02, 0x58, 0x01, 0x04, 0x5F])
      (pulsesOf [0x02, 0x58, 0x01, 0x04, 0x5B]) ⟨0, 0, 0⟩ 0x02 0x58 0x01 0x04 0x5F 37
      (by decide) (by decide) (by decide) (by decide)⟩

/-- C4: for every assembled frame with a valid checksum whose temperature
magnitude is zero (`b3 = 0` and `b2 & 0x7F = 0`, sign bit clear or set),
`dht_read` returns `DHT_ERR_NAN` and not `DHT_OK`. -/
theorem dht_read_zero_temperature (pulse : ℕ → ℕ) (dht : dht_reading) (b0 b1 b2 b3 b4 : ℕ)
    (hframe : dht_read_frame pulse = [b0, b1, b2, b3, b4])
    (hsum : b4 = (b0 + b1 + b2 + b3) % 256)
    (hb3 : b3 = 0) (hb2 : b2 &&& 0x7F = 0) :
    (dht_read pulse dht).1 = DHT_ERR_NAN ∧ (dht_read pulse dht).1 ≠ DHT_OK := by
  have hfault : (dht_read pulse dht).1 = DHT_ERR_NAN := by
    rw [dht_read_eq pulse dht b0 b1 b2 b3 b4 hframe, if_pos hsum, if_pos (by rw [hb2, hb3])]
  exact ⟨hfault, by rw [hfault]; decide⟩

/-- Witness for C4: the frame `02 58 80 00 DA` encodes minus zero. -/
theorem dht_read_zero_temperature_witness :
    (dht_read_frame (pulsesOf [0x02, 0x58, 0x80, 0x00, 0xDA]) = [0x02, 0x58, 0x80, 0x00, 0xDA] ∧
      0xDA = (0x02 + 0x58 + 0x80 + 0x00) % 256 ∧ 0x00 = 0 ∧ 0x80 &&& 0x7F = 0) ∧
    (dht_read (pulsesOf [0x02, 0x58, 0x80, 0x00, 0xDA]) ⟨0, 0, 0⟩).1 = DHT_ERR_NAN ∧
    (dht_read (pulsesOf [0x02, 0x58, 0x80, 0x00, 0xDA]) ⟨0, 0, 0⟩).1 ≠ DHT_OK :=
  ⟨⟨by decide, by decide, by decide, by decide⟩,
    dht_read_zero_temperature (pulsesOf [0x02, 0x58, 0x80, 0x00, 0xDA]) ⟨0, 0, 0⟩
      0x02 0x58 0x80 0x00 0xDA (by decide) (by decide) (by decide) (by decide)⟩

/-- C5: a failed read after which the failure count is still below 20 leaves
the five actuator outputs exactly as they were; in particular up to 19
consecutive faults after a success (count 0) keep the outputs of that success. -/
theorem fault_below_threshold_keeps_actuators :
    (∀ (inp : CycleInput) (s : State),
      (dht_read inp.pulse s.temp_humidity_sensor).1 ≠ DHT_OK →
      (main_cycle inp s).temp_humidity_sensor_fail_cycles < 20 →
      actuators (main_cycle inp s) = actuators s) ∧
    (∀ (inps : List CycleInput) (s : State),
      s.temp_humidity_sensor_fail_cycles = 0 →
      (∀ inp ∈ inps, ∀ dht, (dht_read inp.pulse dht).1 ≠ DHT_OK) →
      inps.length ≤ 19 →
      actuators (main_run inps s) = actuators s) := by
  constructor
  · intro inp s hf hlt
    have h := main_cycle_fault inp s hf
    rw [h.1] at hlt
    rw [h.2, if_neg (by omega)]
  · intro inps s h0 hf hlen
    exact (main_run_faults_count inps s hf (by omega) (by rw [h0]; omega)).2

/-- Witness for C5: one fault, and 19 faults in a row, from a state with every
switch on. -/
theorem fault_below_threshold_keeps_actuators_witness :
    ((dht_read fault_input.pulse all_on_state.temp_humidity_sensor).1 ≠ DHT_OK ∧
      (main_cycle fault_input all_on_state).temp_humidity_sensor_fail_cycles < 20 ∧
      actuators (main_cycle fault_input all_on_state) = (true, true, true, true, true)) ∧
    (all_on_state.temp_humidity_sensor_fail_cycles = 0 ∧
      (List.replicate 19 fault_input).length ≤ 19 ∧
      actuators (main_run (List.replicate 19 fault_input) all_on_state) =
        (true, true, true, true, true)) := by
  have hin : ∀ inp ∈ List.replicate 19 fault_input, ∀ dht, (dht_read inp.pulse dht).1 ≠ DHT_OK := by
    intro inp hi dht
    rw [List.eq_of_mem_replicate hi]
    exact fault_input_fails dht
  have hlt : (main_cycle fault_input all_on_state).temp_humidity_sensor_fail_cycles < 20 := by
    rw [(main_cycle_fault fault_input all_on_state (fault_input_fails _)).1]
    decide
  exact ⟨⟨fault_input_fails _, hlt,
      fault_below_threshold_keeps_actuators.1 fault_input all_on_state (fault_input_fails _) hlt⟩,
    rfl, by decide,
    fault_below_threshold_keeps_actuators.2 (List.replicate 19 fault_input) all_on_state rfl hin
      (by decide)⟩

/-- C6: starting from a failure count of 0 and any actuator states, after `n`
consecutive failed reads with `n ≥ 20` all five actuator outputs are off. -/
theorem fail_safe_after_twenty_faults (inps : List CycleInput) (s : State)
    (h0 : s.temp_humidity_sensor_fail_cycles = 0)
    (hf : ∀ inp ∈ inps, ∀ dht, (dht_read inp.pulse dht).1 ≠ DHT_OK)
    (hlen : 20 ≤ inps.length) :
    actuators (main_run inps s) = (false, false, false, false, false) := by
  have hsplit : inps = inps.take 19 ++ inps.drop 19 := (List.take_append_drop 19 inps).symm
  have hf1 : ∀ inp ∈ inps.take 19, ∀ dht, (dht_read inp.pulse dht).1 ≠ DHT_OK :=
    fun i hi => hf i (List.mem_of_mem_take hi)
  have hf2 : ∀ inp ∈ inps.drop 19, ∀ dht, (dht_read inp.pulse dht).1 ≠ DHT_OK :=
    fun i hi => hf i (List.mem_of_mem_drop hi)
  have hl1 : (inps.take 19).length = 19 := by rw [List.length_take]; omega
  have h19 := main_run_faults_count (inps.take 19) s hf1 (by omega) (by rw [h0, hl1]; norm_num)
  rw [hsplit, main_run_append]
  cases hd : inps.drop 19 with
  | nil =>
    have : (inps.drop 19).length = 0 := by rw [hd]; rfl
    rw [List.length_drop] at this
    omega
  | cons inp rest =>
    rw [hd] at hf2
    rw [main_run_cons]
    apply main_run_faults_off rest _ (fun i hi => hf2 i (List.mem_cons_of_mem _ hi))
    have hfault := main_cycle_fault inp (main_run (inps.take 19) s)
      (hf2 inp (List.mem_cons_self _ _) _)
    rw [hfault.2, h19.1, h0, hl1, if_pos (by decide)]

/-- Witness for C6: 20 and 300 faults in a row from a state with every switch
on (300 faults take the 8-bit counter past its wrap-around). -/
theorem fail_safe_after_twenty_faults_witness :
    all_on_state.temp_humidity_sensor_fail_cycles = 0 ∧
    20 ≤ (List.replicate 20 fault_input).length ∧
    actuators (main_run (List.replicate 20 fault_input) all_on_state) =
      (false, false, false, false, false) ∧
    actuators (main_run (List.replicate 300 fault_input) all_on_state) =
      (false, false, false, false, false) := by
  have hin : ∀ n, ∀ inp ∈ List.replicate n fault_input, ∀ dht,
      (dht_read inp.pulse dht).1 ≠ DHT_OK := by
    intro n inp hi dht
    rw [List.eq_of_mem_replicate hi]
    exact fault_input_fails dht
  exact ⟨rfl, by rw [List.length_replicate],
    fail_safe_after_twenty_faults (List.replicate 20 fault_input) all_on_state rfl (hin 20)
      (by rw [List.length_replicate]),
    fail_safe_after_twenty_faults (List.replicate 300 fault_input) all_on_state rfl (hin 300)
      (by rw [List.length_replicate]; norm_num)⟩

/-- C8: in a pass whose read succeeds with humidity `h` and temperature `c`,
writing `t = c * 9 / 5 + 32` (exactly), the outputs are fans = (`t > 80` or the
air cycle is active), heat = (`t < 70`), humidifier = (`h < 80`), pump = (the
float switch reads low), light = (the light cycle is active). The comparisons
are strict, so `t = 70`, `t = 80` and `h = 80` switch nothing on. -/
theorem success_cycle_outputs (inp : CycleInput) (s : State)
    (hok : (dht_read inp.pulse s.temp_humidity_sensor).1 = DHT_OK) :
    (main_cycle inp s).fans =
      (decide ((dht_read inp.pulse s.temp_humidity_sensor).2.temp_celsius * 9 / 5 + 32 > 80) ||
        (is_air_cycle_active inp.air_time s.last_air_cycle_time).1) ∧
    (main_cycle inp s).heat_pads =
      decide ((dht_read inp.pulse s.temp_humidity_sensor).2.temp_celsius * 9 / 5 + 32 < 70) ∧
    (main_cycle inp s).humidifier =
      decide ((dht_read inp.pulse s.temp_humidity_sensor).2.humidity < 80) ∧
    (main_cycle inp s).pump = (!inp.float_switch_in) ∧
    (main_cycle inp s).light =
      (is_light_cycle_active inp.light_time s.last_light_cycle_time).1 := by
  obtain ⟨k, hk⟩ := dht_read_ok_temp inp.pulse s.temp_humidity_sensor hok
  obtain ⟨h80, h70⟩ := read_temperature_thresholds _ k hk
  unfold main_cycle
  rw [if_pos hok]
  simp only [fans_air_cycle_fst, read_humidity, is_water_low, decide_eq_decide.mpr h80,
    decide_eq_decide.mpr h70]
  exact ⟨trivial, trivial, trivial, trivial, trivial⟩

/-- Witness for C8: 60.0 percent and 26.0 degrees Celsius (78.8 Fahrenheit),
water low, both cycles active. -/
theorem success_cycle_outputs_witness :
    (dht_read good_input.pulse all_on_state.temp_humidity_sensor).1 = DHT_OK ∧
    (main_cycle good_input all_on_state).fans = true ∧
    (main_cycle good_input all_on_state).heat_pads = false ∧
    (main_cycle good_input all_on_state).humidifier = true ∧
    (main_cycle good_input all_on_state).pump = true ∧
    (main_cycle good_input all_on_state).light = true := by
  have hok : (dht_read good_input.pulse all_on_state.temp_humidity_sensor).1 = DHT_OK := by
    rw [good_input_reads]
  obtain ⟨h1, h2, h3, h4, h5⟩ := success_cycle_outputs good_input all_on_state hok
  have ha : is_air_cycle_active good_input.air_time all_on_state.last_air_cycle_time = (true, 0) :=
    is_air_cycle_active_eq 1000000 0 (by norm_num) (by norm_num)
  have hl : is_light_cycle_active good_input.light_time all_on_state.last_light_cycle_time =
      (true, 0) := is_light_cycle_active_eq 1000000 0 (by norm_num) (by norm_num)
  rw [good_input_reads] at h1 h2 h3
  refine ⟨hok, ?_, ?_, ?_, ?_, ?_⟩
  · rw [h1, ha]; simp
  · rw [h2]; norm_num
  · rw [h3]; norm_num
  · rw [h4]; rfl
  · rw [h5, hl]

/-- Counterexample for C9 as worded: one microsecond before the 15-minute mark
the elapsed time already rounds to 900000000 us as a `float`, so the code
reports active and resets the timer. -/
theorem air_cycle_spec_fails :
    is_air_cycle_active 899999999 0 = (true, 899999999) ∧ ¬ air_cycle_spec 899999999 0 := by
  have h := is_air_cycle_active_eq 899999999 0 (by norm_num) (by norm_num)
  rw [if_pos (by norm_num)] at h
  refine ⟨h, fun hs => ?_⟩
  have h3 := hs.2.2 (by norm_num) (by norm_num)
  rw [h] at h3
  revert h3
  decide

/-- C9 (amended): with `last_air_cycle_time ≤ now` and `elapsed = now - last`
in microseconds, `is_air_cycle_active` returns true and resets the timer when
`elapsed ≥ 899999968` (the elapsed times whose `float` minutes are at least 15);
otherwise returns true without reset when `elapsed < 119999996` (`float`
minutes below 2); otherwise returns false without reset. -/
theorem air_cycle_thresholds (now last : ℕ) (hle : last ≤ now) (hnow : now < 2 ^ 64) :
    (899999968 ≤ now - last → is_air_cycle_active now last = (true, now)) ∧
    (now - last < 119999996 → is_air_cycle_active now last = (true, last)) ∧
    (119999996 ≤ now - last → now - last < 899999968 →
      is_air_cycle_active now last = (false, last)) := by
  rw [is_air_cycle_active_eq now last hle hnow]
  refine ⟨fun h => by rw [if_pos h], fun h => ?_, fun h1 h2 => ?_⟩
  · rw [if_neg (by omega), if_pos h]
  · rw [if_neg (by omega), if_neg (by omega)]

/-- Witness for C9 (amended): exactly 15 min reports active and resets;
14.9 min reports inactive without reset. -/
theorem air_cycle_thresholds_witness :
    (0 ≤ 900000000 ∧ 900000000 < 2 ^ 64) ∧
    is_air_cycle_active 900000000 0 = (true, 900000000) ∧
    is_air_cycle_active 894000000 0 = (false, 0) :=
  ⟨⟨by norm_num, by norm_num⟩,
    (air_cycle_thresholds 900000000 0 (by norm_num) (by norm_num)).1 (by norm_num),
    (air_cycle_thresholds 894000000 0 (by norm_num) (by norm_num)).2.2 (by norm_num)
      (by norm_num)⟩

/-- Counterexample for C10 as worded: one microsecond before the 12-hour mark
the elapsed time already rounds to 43200000000 us as a `float`, so the code
reports inactive. -/
theorem light_cycle_spec_fails :
    is_light_cycle_active 43199999999 0 = (false, 0) ∧ ¬ light_cycle_spec 43199999999 0 := by
  have h := is_light_cycle_active_eq 43199999999 0 (by norm_num) (by norm_num)
  rw [if_neg (by norm_num), if_neg (by norm_num)] at h
  refine ⟨h, fun hs => ?_⟩
  have h3 := hs.1 (by norm_num)
  rw [h] at h3
  revert h3
  decide

/-- C10 (amended): with `last_light_cycle_time ≤ now` and `elapsed = now - last`
in microseconds, `is_light_cycle_active` returns true without reset when
`elapsed ≤ 43199997952` (`float` hours below 12); returns false and resets the
timer when `elapsed ≥ 86399995905` (`float` hours at least 24); returns false
without reset in between. -/
theorem light_cycle_thresholds (now last : ℕ) (hle : last ≤ now) (hnow : now < 2 ^ 64) :
    (now - last ≤ 43199997952 → is_light_cycle_active now last = (true, last)) ∧
    (43199997952 < now - last → now - last < 86399995905 →
      is_light_cycle_active now last = (false, last)) ∧
    (86399995905 ≤ now - last → is_light_cycle_active now last = (false, now)) := by
  rw [is_light_cycle_active_eq now last hle hnow]
  refine ⟨fun h => by rw [if_pos h], fun h1 h2 => ?_, fun h => ?_⟩
  · rw [if_neg (by omega), if_neg (by omega)]
  · rw [if_neg (by omega), if_pos h]

/-- Witness for C10 (amended): 6 h is active, exactly 12 h and 18 h are
inactive without reset, exactly 24 h is inactive with reset. -/
theorem light_cycle_thresholds_witness :
    (0 ≤ 86400000000 ∧ 86400000000 < 2 ^ 64) ∧
    is_light_cycle_active 21600000000 0 = (true, 0) ∧
    is_light_cycle_active 43200000000 0 = (false, 0) ∧
    is_light_cycle_active 64800000000 0 = (false, 0) ∧
    is_light_cycle_active 86400000000 0 = (false, 86400000000) :=
  ⟨⟨by norm_num, by norm_num⟩,
    (light_cycle_thresholds 21600000000 0 (by norm_num) (by norm_num)).1 (by norm_num),
    (light_cycle_thresholds 43200000000 0 (by norm_num) (by norm_num)).2.1 (by norm_num)
      (by norm_num),
    (light_cycle_thresholds 64800000000 0 (by norm_num) (by norm_num)).2.1 (by norm_num)
      (by norm_num),
    (light_cycle_thresholds 86400000000 0 (by norm_num) (by norm_num)).2.2 (by norm_num)⟩

/-! ## Further lemmas on the decoder, the counter and the timers -/

theorem decoded_bit_le_one (pulse : ℕ → ℕ) (bit : ℕ) : decoded_bit pulse bit ≤ 1 := by
  unfold decoded_bit
  split_ifs <;> omega

set_option maxRecDepth 100000 in
theorem or_one_byte : ∀ x < 256, (x * 2 % 256) ||| 1 = x * 2 % 256 + 1 := by
  decide

theorem dht_read_bit_eq (pulse : ℕ → ℕ) (data : List ℕ) (bit : ℕ) (h : bit / 8 < data.length)
    (hb : ∀ x ∈ data, x < 256) :
    dht_read_bit pulse data bit =
      data.set (bit / 8) ((data.getD (bit / 8) 0 * 2) % 256 + decoded_bit pulse bit) := by
  have hx : data.getD (bit / 8) 0 < 256 := by
    rw [List.getD_eq_getElem?_getD, List.getElem?_eq_getElem h, Option.getD_some]
    exact hb _ (List.getElem_mem h)
  unfold dht_read_bit decoded_bit
  simp only
  split_ifs with hc
  · rw [List.set_set]
    congr 1
    rw [List.getD_eq_getElem?_getD, List.getElem?_set_self h, Option.getD_some]
    exact or_one_byte _ hx
  · rfl

/-- The loop body of `dht_read` written with the decoded bit value. -/
theorem dht_read_frame_fold (pulse : ℕ → ℕ) (bits : List ℕ) :
    ∀ data : List ℕ, (∀ b ∈ bits, b < 40) → (data.length = 5 ∧ ∀ x ∈ data, x < 256) →
      bits.foldl (dht_read_bit pulse) data =
        bits.foldl (fun d bit =>
          d.set (bit / 8) ((d.getD (bit / 8) 0 * 2) % 256 + decoded_bit pulse bit)) data := by
  induction bits with
  | nil => intro data _ _; rfl
  | cons b bs ih =>
    intro data hb hinv
    have hb40 : b < 40 := hb b (List.mem_cons_self _ _)
    have hstep := dht_read_bit_eq pulse data b (by rw [hinv.1]; omega) hinv.2
    rw [List.foldl_cons, List.foldl_cons, ← hstep]
    exact ih _ (fun x hx => hb x (List.mem_cons_of_mem _ hx)) (dht_read_bit_inv pulse data b hinv)

theorem range_40 : List.range 40 = [0, 1, 2, 3, 4, 5, 6, 7, 8, 9, 10, 11, 12, 13, 14, 15, 16, 17,
    18, 19, 20, 21, 22, 23, 24, 25, 26, 27, 28, 29, 30, 31, 32, 33, 34, 35, 36, 37, 38, 39] := by
  decide

/-- The byte that eight successive bit values pack to, first bit in the top
position. -/
theorem pack_byte (v0 v1 v2 v3 v4 v5 v6 v7 : ℕ) (h0 : v0 ≤ 1) (h1 : v1 ≤ 1) (h2 : v2 ≤ 1)
    (h3 : v3 ≤ 1) (h4 : v4 ≤ 1) (h5 : v5 ≤ 1) (h6 : v6 ≤ 1) :
    (((((((0 * 2 % 256 + v0) * 2 % 256 + v1) * 2 % 256 + v2) * 2 % 256 + v3) * 2 % 256 + v4)
      * 2 % 256 + v5) * 2 % 256 + v6) * 2 % 256 + v7 =
    v0 * 2 ^ 7 + v1 * 2 ^ 6 + v2 * 2 ^ 5 + v3 * 2 ^ 4 + v4 * 2 ^ 3 + v5 * 2 ^ 2 + v6 * 2 ^ 1
      + v7 * 2 ^ 0 := by
  omega

theorem dht_read_frame_eq (pulse : ℕ → ℕ) :
    dht_read_frame pulse =
      (List.range 5).map (fun j => ∑ i ∈ Finset.range 8, decoded_bit pulse (8 * j + i) * 2 ^ (7 - i)) := by
  unfold dht_read_frame
  rw [dht_read_frame_fold pulse (List.range 40) [0, 0, 0, 0, 0]
    (fun b hb => List.mem_range.mp hb) ⟨rfl, by decide⟩, range_40]
  have hr5 : List.range 5 = [0, 1, 2, 3, 4] := by decide
  rw [hr5]
  simp only [List.foldl_cons, List.foldl_nil, Nat.reduceDiv, List.set_cons_zero,
    List.set_cons_succ, List.getD_cons_zero, List.getD_cons_succ, List.map_cons, List.map_nil,
    Finset.sum_range_succ, Finset.sum_range_zero, Nat.reduceMul, Nat.reduceAdd, Nat.reduceSub,
    zero_add, add_zero]
  have hv := decoded_bit_le_one pulse
  rw [pack_byte _ _ _ _ _ _ _ _ (hv 0) (hv 1) (hv 2) (hv 3) (hv 4) (hv 5) (hv 6),
    pack_byte _ _ _ _ _ _ _ _ (hv 8) (hv 9) (hv 10) (hv 11) (hv 12) (hv 13) (hv 14),
    pack_byte _ _ _ _ _ _ _ _ (hv 16) (hv 17) (hv 18) (hv 19) (hv 20) (hv 21) (hv 22),
    pack_byte _ _ _ _ _ _ _ _ (hv 24) (hv 25) (hv 26) (hv 27) (hv 28) (hv 29) (hv 30),
    pack_byte _ _ _ _ _ _ _ _ (hv 32) (hv 33) (hv 34) (hv 35) (hv 36) (hv 37) (hv 38)]

theorem dht_read_fault_snd (pulse : ℕ → ℕ) (dht : dht_reading)
    (h : (dht_read pulse dht).1 ≠ DHT_OK) : (dht_read pulse dht).2 = dht := by
  revert h
  unfold dht_read dht_read_decode
  simp only
  split_ifs <;> simp [DHT_OK]

theorem dht_read_pin (pulse : ℕ → ℕ) (dht : dht_reading) : (dht_read pulse dht).2.pin = dht.pin := by
  unfold dht_read dht_read_decode
  simp only
  split_ifs <;> rfl

/-- What a successful read stores, in terms of the assembled frame. -/
theorem dht_read_ok_frame (pulse : ℕ → ℕ) (dht : dht_reading)
    (hok : (dht_read pulse dht).1 = DHT_OK) :
    ∃ b0 b1 b2 b3 b4, dht_read_frame pulse = [b0, b1, b2, b3, b4] ∧
      (b0 < 256 ∧ b1 < 256 ∧ b2 < 256 ∧ b3 < 256) ∧
      256 * (b2 &&& 0x7F) + b3 ≠ 0 ∧
      (dht_read pulse dht).2.humidity = f32 (((256 * b0 + b1 : ℕ) : ℚ) / 10) ∧
      ((dht_read pulse dht).2.temp_celsius = f32 (((256 * (b2 &&& 0x7F) + b3 : ℕ) : ℚ) / 10) ∨
        (dht_read pulse dht).2.temp_celsius =
          -f32 (((256 * (b2 &&& 0x7F) + b3 : ℕ) : ℚ) / 10)) := by
  obtain ⟨b0, b1, b2, b3, b4, hframe⟩ := dht_read_frame_exists pulse
  obtain ⟨h0, h1, h2, h3, -⟩ := dht_read_frame_bytes pulse b0 b1 b2 b3 b4 hframe
  refine ⟨b0, b1, b2, b3, b4, hframe, ⟨h0, h1, h2, h3⟩, ?_⟩
  rw [dht_read_eq pulse dht b0 b1 b2 b3 b4 hframe] at hok ⊢
  by_cases hc : b4 = (b0 + b1 + b2 + b3) % 256
  · rw [if_pos hc] at hok ⊢
    by_cases hz : 256 * (b2 &&& 0x7F) + b3 = 0
    · rw [if_pos hz] at hok
      exact absurd hok (by decide : DHT_ERR_NAN ≠ DHT_OK)
    · rw [if_neg hz]
      refine ⟨hz, rfl, ?_⟩
      by_cases ht : b2.testBit 7 = true
      · right; simp only [ht, if_true]
      · left; simp only [ht]; rfl
  · rw [if_neg hc] at hok
    exact absurd hok (by decide : DHT_ERR_CHECKSUM ≠ DHT_OK)

theorem f32_nonneg {q : ℚ} (h : 0 ≤ q) : 0 ≤ f32 q := by
  have := roundNE_mono 24 (by norm_num) h
  rwa [roundNE_zero] at this

theorem f32_humidity_le (k : ℕ) (hk : k ≤ 65535) : f32 ((k : ℚ) / 10) ≤ 6553.5 := by
  have hF : roundNE 24 (6553.5 : ℚ) = 6553.5 := by
    have := roundNE_dyadic 24 13107 1 (by norm_num)
    norm_num at this ⊢
    exact this
  refine roundNE_le_of_le 24 (by norm_num) hF ?_
  have : (k : ℚ) ≤ 65535 := by exact_mod_cast hk
  linarith

theorem f32_temp_le (k : ℕ) (hk : k ≤ 32767) : f32 ((k : ℚ) / 10) ≤ 3276.75 := by
  have hF : roundNE 24 (3276.75 : ℚ) = 3276.75 := by
    have := roundNE_dyadic 24 13107 2 (by norm_num)
    norm_num at this ⊢
    exact this
  refine roundNE_le_of_le 24 (by norm_num) hF ?_
  have : (k : ℚ) ≤ 32767 := by exact_mod_cast hk
  linarith

theorem f32_humidity_le_100_iff (k : ℕ) : f32 ((k : ℚ) / 10) ≤ 100 ↔ k ≤ 1000 := by
  constructor
  · intro h
    by_contra hk
    push_neg at hk
    have hF : roundNE 24 (100.0625 : ℚ) = 100.0625 := by
      have := roundNE_dyadic 24 1601 4 (by norm_num)
      norm_num at this ⊢
      exact this
    have : (100.0625 : ℚ) ≤ f32 ((k : ℚ) / 10) := by
      refine le_roundNE_of_le 24 (by norm_num) hF ?_
      have : (1001 : ℚ) ≤ k := by exact_mod_cast hk
      linarith
    linarith
  · intro hk
    have hF : roundNE 24 (100 : ℚ) = 100 := by
      have := roundNE_dyadic 24 100 0 (by norm_num)
      norm_num at this ⊢
      exact this
    refine roundNE_le_of_le 24 (by norm_num) hF ?_
    have : (k : ℚ) ≤ 1000 := by exact_mod_cast hk
    linarith

theorem hot_input_reads (dht : dht_reading) :
    dht_read hot_input.pulse dht = (DHT_OK, ⟨dht.pin, 60, 30⟩) := by
  rw [dht_read_eq hot_input.pulse dht 0x02 0x58 0x01 0x2C 0x87 (by decide)]
  have h30 : f32 (((256 * (0x01 &&& 0x7F) + 0x2C : ℕ) : ℚ) / 10) = 30 := by
    have := f32_natCast 30 (by norm_num)
    have h : (0x01 &&& 0x7F : ℕ) = 1 := by decide
    rw [h]
    norm_num at this ⊢
    exact this
  rw [f32_sixty, h30]
  rfl

theorem mild_input_reads (dht : dht_reading) :
    dht_read mild_input.pulse dht = (DHT_OK, ⟨dht.pin, 60, 26⟩) :=
  good_input_reads dht

theorem main_run_faults_wrap (inps : List CycleInput) :
    ∀ s : State, (∀ inp ∈ inps, ∀ dht, (dht_read inp.pulse dht).1 ≠ DHT_OK) → inps ≠ [] →
      (main_run inps s).temp_humidity_sensor_fail_cycles =
        int8_wrap (s.temp_humidity_sensor_fail_cycles + inps.length) := by
  induction inps with
  | nil => intro s _ h; exact absurd rfl h
  | cons inp l ih =>
    intro s hf _
    have hfault := (main_cycle_fault inp s (hf inp (List.mem_cons_self _ _) _)).1
    rw [main_run_cons]
    rcases l with _ | ⟨x, l2⟩
    · simp only [main_run, List.foldl_nil, List.length_cons, List.length_nil]
      rw [hfault]
      rfl
    · rw [ih (main_cycle inp s) (fun i hi => hf i (List.mem_cons_of_mem _ hi))
        (List.cons_ne_nil _ _), hfault]
      simp only [List.length_cons, Nat.cast_add, Nat.cast_one]
      unfold int8_wrap
      omega

theorem fault_input_replicate (n : ℕ) :
    ∀ inp ∈ List.replicate n fault_input, ∀ dht, (dht_read inp.pulse dht).1 ≠ DHT_OK := by
  intro inp hi dht
  rw [List.eq_of_mem_replicate hi]
  exact fault_input_fails dht

theorem main_cycle_fault_timers (inp : CycleInput) (s : State)
    (h : (dht_read inp.pulse s.temp_humidity_sensor).1 ≠ DHT_OK) :
    (main_cycle inp s).last_air_cycle_time = s.last_air_cycle_time ∧
      (main_cycle inp s).last_light_cycle_time = s.last_light_cycle_time := by
  unfold main_cycle
  rw [if_neg h]
  simp only
  split_ifs <;> exact ⟨rfl, rfl⟩

theorem is_air_cycle_active_snd (now last : ℕ) :
    (is_air_cycle_active now last).2 = last ∨ (is_air_cycle_active now last).2 = now := by
  unfold is_air_cycle_active
  split_ifs <;> simp

theorem is_light_cycle_active_snd (now last : ℕ) :
    (is_light_cycle_active now last).2 = last ∨ (is_light_cycle_active now last).2 = now := by
  unfold is_light_cycle_active
  split_ifs <;> simp

/-- Each pass leaves a timer as it was or sets it to the clock value read in
that pass. -/
theorem main_cycle_timers (inp : CycleInput) (s : State) :
    ((main_cycle inp s).last_air_cycle_time = s.last_air_cycle_time ∨
      (main_cycle inp s).last_air_cycle_time = inp.air_time) ∧
    ((main_cycle inp s).last_light_cycle_time = s.last_light_cycle_time ∨
      (main_cycle inp s).last_light_cycle_time = inp.light_time) := by
  by_cases hok : (dht_read inp.pulse s.temp_humidity_sensor).1 = DHT_OK
  · unfold main_cycle
    rw [if_pos hok]
    simp only [fans_air_cycle]
    refine ⟨?_, is_light_cycle_active_snd _ _⟩
    split_ifs
    · left; rfl
    · exact is_air_cycle_active_snd _ _
  · unfold main_cycle
    rw [if_neg hok]
    simp only
    split_ifs <;> exact ⟨Or.inl rfl, Or.inl rfl⟩

theorem main_run_timers_le (pre : List CycleInput) (inp : CycleInput) (post : List CycleInput) :
    ∀ (s : State) (p : ℕ), s.last_air_cycle_time ≤ p → s.last_light_cycle_time ≤ p →
      clock_monotone p (pre ++ inp :: post) = true →
      (main_run pre s).last_air_cycle_time ≤ inp.air_time ∧
        (main_run pre s).last_light_cycle_time ≤ inp.light_time := by
  induction pre with
  | nil =>
    intro s p ha hl hm
    simp only [List.nil_append, clock_monotone, Bool.and_eq_true, decide_eq_true_eq] at hm
    simp only [main_run, List.foldl_nil]
    omega
  | cons x pre ih =>
    intro s p ha hl hm
    simp only [List.cons_append, clock_monotone, Bool.and_eq_true, decide_eq_true_eq] at hm
    obtain ⟨⟨h1, h2⟩, h3⟩ := hm
    obtain ⟨hta, htl⟩ := main_cycle_timers x s
    rw [main_run_cons]
    apply ih (main_cycle x s) x.light_time _ _ h3
    · rcases hta with h | h
      · rw [h]; omega
      · rw [h]; omega
    · rcases htl with h | h
      · rw [h]; omega
      · rw [h]

/-- The air timer after a pass whose read succeeds, by the exact Fahrenheit
value of the fresh reading. -/
theorem main_cycle_air_timer (inp : CycleInput) (s : State)
    (hok : (dht_read inp.pulse s.temp_humidity_sensor).1 = DHT_OK) :
    (main_cycle inp s).last_air_cycle_time =
      if (dht_read inp.pulse s.temp_humidity_sensor).2.temp_celsius * 9 / 5 + 32 > 80 then
        s.last_air_cycle_time
      else (is_air_cycle_active inp.air_time s.last_air_cycle_time).2 := by
  obtain ⟨k, hk⟩ := dht_read_ok_temp inp.pulse s.temp_humidity_sensor hok
  obtain ⟨h80, -⟩ := read_temperature_thresholds _ k hk
  unfold main_cycle
  rw [if_pos hok]
  simp only [fans_air_cycle]
  by_cases h : (dht_read inp.pulse s.temp_humidity_sensor).2.temp_celsius * 9 / 5 + 32 > 80
  · rw [if_pos (h80.mpr h), if_pos h]
  · rw [if_neg (fun hc => h (h80.mp hc)), if_neg h]

/-- One pass from two states that agree on the timers, the counter and the five
actuator outputs ends in states that agree on them. -/
theorem main_cycle_agree (inp : CycleInput) (s1 s2 : State)
    (hair : s1.last_air_cycle_time = s2.last_air_cycle_time)
    (hlight : s1.last_light_cycle_time = s2.last_light_cycle_time)
    (hcount : s1.temp_humidity_sensor_fail_cycles = s2.temp_humidity_sensor_fail_cycles)
    (hact : actuators s1 = actuators s2) :
    actuators (main_cycle inp s1) = actuators (main_cycle inp s2) ∧
      (main_cycle inp s1).last_air_cycle_time = (main_cycle inp s2).last_air_cycle_time ∧
      (main_cycle inp s1).last_light_cycle_time = (main_cycle inp s2).last_light_cycle_time ∧
      (main_cycle inp s1).temp_humidity_sensor_fail_cycles =
        (main_cycle inp s2).temp_humidity_sensor_fail_cycles := by
  have hst := dht_read_status_indep inp.pulse s1.temp_humidity_sensor s2.temp_humidity_sensor
  by_cases hok : (dht_read inp.pulse s1.temp_humidity_sensor).1 = DHT_OK
  · have hok2 : (dht_read inp.pulse s2.temp_humidity_sensor).1 = DHT_OK := by rw [← hst]; exact hok
    obtain ⟨hh, ht⟩ := dht_read_values_indep inp.pulse s1.temp_humidity_sensor
      s2.temp_humidity_sensor hok
    unfold main_cycle
    rw [if_pos hok, if_pos hok2]
    simp only [actuators, read_temperature, read_humidity, hh, ht, hair, hlight]
    exact ⟨trivial, trivial, trivial, trivial⟩
  · have hok2 : (dht_read inp.pulse s2.temp_humidity_sensor).1 ≠ DHT_OK := by rw [← hst]; exact hok
    have h1 := main_cycle_fault inp s1 hok
    have h2 := main_cycle_fault inp s2 hok2
    obtain ⟨ha1, hl1⟩ := main_cycle_fault_timers inp s1 hok
    obtain ⟨ha2, hl2⟩ := main_cycle_fault_timers inp s2 hok2
    refine ⟨?_, ?_, ?_, ?_⟩
    · rw [h1.2, h2.2, hcount, hact]
    · rw [ha1, ha2, hair]
    · rw [hl1, hl2, hlight]
    · rw [h1.1, h2.1, hcount]

/-- Any run of passes from two states that agree on the timers, the counter and
the five actuator outputs ends in states that agree on them. -/
theorem main_run_agree (inps : List CycleInput) :
    ∀ s1 s2 : State, s1.last_air_cycle_time = s2.last_air_cycle_time →
      s1.last_light_cycle_time = s2.last_light_cycle_time →
      s1.temp_humidity_sensor_fail_cycles = s2.temp_humidity_sensor_fail_cycles →
      actuators s1 = actuators s2 →
      actuators (main_run inps s1) = actuators (main_run inps s2) ∧
        (main_run inps s1).last_air_cycle_time = (main_run inps s2).last_air_cycle_time ∧
        (main_run inps s1).last_light_cycle_time = (main_run inps s2).last_light_cycle_time ∧
        (main_run inps s1).temp_humidity_sensor_fail_cycles =
          (main_run inps s2).temp_humidity_sensor_fail_cycles := by
  induction inps with
  | nil => intro s1 s2 ha hl hc hact; exact ⟨hact, ha, hl, hc⟩
  | cons inp rest ih =>
    intro s1 s2 ha hl hc hact
    obtain ⟨h1, h2, h3, h4⟩ := main_cycle_agree inp s1 s2 ha hl hc hact
    rw [main_run_cons, main_run_cons]
    exact ih _ _ h2 h3 h4 h1

/-- The stored reading after a pass is the result of `dht_read`: the pin is
never changed and a fault leaves the whole reading as it was. -/
theorem main_cycle_sensor (inp : CycleInput) (s : State) :
    (main_cycle inp s).temp_humidity_sensor = (dht_read inp.pulse s.temp_humidity_sensor).2 ∧
      (main_cycle inp s).temp_humidity_sensor.pin = s.temp_humidity_sensor.pin ∧
      ((dht_read inp.pulse s.temp_humidity_sensor).1 ≠ DHT_OK →
        (main_cycle inp s).temp_humidity_sensor = s.temp_humidity_sensor) := by
  have h : (main_cycle inp s).temp_humidity_sensor =
      (dht_read inp.pulse s.temp_humidity_sensor).2 := by
    by_cases hok : (dht_read inp.pulse s.temp_humidity_sensor).1 = DHT_OK
    · unfold main_cycle
      rw [if_pos hok]
    · unfold main_cycle
      rw [if_neg hok]
      simp only
      split_ifs <;> rfl
  refine ⟨h, ?_, fun hf => ?_⟩
  · rw [h, dht_read_pin]
  · rw [h, dht_read_fault_snd _ _ hf]

/-- The LED after a pass: switched off exactly in the fail-safe branch, left as
it was otherwise. -/
theorem main_cycle_led (inp : CycleInput) (s : State) :
    (main_cycle inp s).led =
      if (dht_read inp.pulse s.temp_humidity_sensor).1 ≠ DHT_OK ∧
          int8_wrap (s.temp_humidity_sensor_fail_cycles + 1) ≥ 20 then false
      else s.led := by
  by_cases hok : (dht_read inp.pulse s.temp_humidity_sensor).1 = DHT_OK
  · unfold main_cycle
    rw [if_pos hok, if_neg (fun h => h.1 hok)]
  · unfold main_cycle
    rw [if_neg hok]
    simp only
    by_cases h20 : int8_wrap (s.temp_humidity_sensor_fail_cycles + 1) ≥ 20
    · rw [if_pos h20, if_pos ⟨hok, h20⟩]
    · rw [if_neg h20, if_neg (fun h => h20 h.2)]

/-! ## Claims, continued -/

/-- C11 (what the code does at the failing input): a high pulse of 256 us or
300 us is truncated to `count = 0` or `44` and decodes to bit value 0, although
it is longer than 50 us; a 51 us pulse decodes to 1. -/
theorem long_pulse_decodes_as_zero :
    decoded_bit (fun _ => 256) 0 = 0 ∧ decoded_bit (fun _ => 300) 0 = 0 ∧
    decoded_bit (fun _ => 51) 0 = 1 ∧
    dht_read_bit (fun _ => 256) [0, 0, 0, 0, 0] 0 = [0, 0, 0, 0, 0] ∧
    dht_read_bit (fun _ => 51) [0, 0, 0, 0, 0] 0 = [1, 0, 0, 0, 0] ∧
    dht_read_frame (fun _ => 300) = [0, 0, 0, 0, 0] ∧
    dht_read_frame (fun _ => 51) = [255, 255, 255, 255, 255] := by
  decide

/-- C12 (what the code does at the failing input): after 127 consecutive
faults from start-up the counter is 127; the 128th fault makes it -128, so it
is negative, differs from the streak of 128, and the test `>= 20` is false. -/
theorem failure_counter_wraps :
    (main_run (List.replicate 127 fault_input)
      (initialise 0 0 ⟨0, 0, 0⟩)).temp_humidity_sensor_fail_cycles = 127 ∧
    (main_run (List.replicate 128 fault_input)
      (initialise 0 0 ⟨0, 0, 0⟩)).temp_humidity_sensor_fail_cycles = -128 ∧
    ¬ (main_run (List.replicate 128 fault_input)
      (initialise 0 0 ⟨0, 0, 0⟩)).temp_humidity_sensor_fail_cycles ≥ 20 := by
  have h127 := main_run_faults_wrap (List.replicate 127 fault_input) (initialise 0 0 ⟨0, 0, 0⟩)
    (fault_input_replicate 127) (by simp)
  have h128 := main_run_faults_wrap (List.replicate 128 fault_input) (initialise 0 0 ⟨0, 0, 0⟩)
    (fault_input_replicate 128) (by simp)
  rw [List.length_replicate] at h127 h128
  have e127 : int8_wrap ((initialise 0 0 ⟨0, 0, 0⟩).temp_humidity_sensor_fail_cycles
      + ((127 : ℕ) : ℤ)) = 127 := by decide
  have e128 : int8_wrap ((initialise 0 0 ⟨0, 0, 0⟩).temp_humidity_sensor_fail_cycles
      + ((128 : ℕ) : ℤ)) = -128 := by decide
  rw [e127] at h127
  rw [e128] at h128
  refine ⟨h127, h128, ?_⟩
  rw [h128]
  decide

/-- Counterexample for C13 as worded: the frame `00 00 01 04 05` is accepted
with `DHT_OK` and stores humidity 0. -/
theorem zero_humidity_accepted :
    dht_read (pulsesOf [0x00, 0x00, 0x01, 0x04, 0x05]) ⟨0, 50, 20⟩ = (DHT_OK, ⟨0, 0, 26⟩) ∧
    ¬ ((dht_read (pulsesOf [0x00, 0x00, 0x01, 0x04, 0x05]) ⟨0, 50, 20⟩).1 = DHT_OK →
      (dht_read (pulsesOf [0x00, 0x00, 0x01, 0x04, 0x05]) ⟨0, 50, 20⟩).2.humidity ≠ 0 ∧
      (dht_read (pulsesOf [0x00, 0x00, 0x01, 0x04, 0x05]) ⟨0, 50, 20⟩).2.temp_celsius ≠ 0) := by
  have h : dht_read (pulsesOf [0x00, 0x00, 0x01, 0x04, 0x05]) ⟨0, 50, 20⟩ =
      (DHT_OK, ⟨0, 0, 26⟩) := by
    rw [dht_read_eq _ ⟨0, 50, 20⟩ 0x00 0x00 0x01 0x04 0x05 (by decide), if_pos (by decide),
      if_neg (by decide), f32_twenty_six]
    have h0 : f32 (((256 * 0x00 + 0x00 : ℕ) : ℚ) / 10) = 0 := by simp [f32, roundNE]
    rw [h0]
    rfl
  refine ⟨h, ?_⟩
  rw [h]
  intro hc
  exact (hc rfl).1 rfl

/-- C13 (amended): whenever `dht_read` returns `DHT_OK` the stored temperature
is non-zero and both stored fields are finite: the temperature has magnitude at
most 3276.75 and the humidity lies between 0 and 6553.5. The humidity may be 0. -/
theorem dht_read_ok_reading (pulse : ℕ → ℕ) (dht : dht_reading)
    (hok : (dht_read pulse dht).1 = DHT_OK) :
    (dht_read pulse dht).2.temp_celsius ≠ 0 ∧
    |(dht_read pulse dht).2.temp_celsius| ≤ 3276.75 ∧
    0 ≤ (dht_read pulse dht).2.humidity ∧ (dht_read pulse dht).2.humidity ≤ 6553.5 := by
  obtain ⟨b0, b1, b2, b3, b4, -, ⟨h0, h1, h2, h3⟩, hmag, hh, ht⟩ := dht_read_ok_frame pulse dht hok
  have hm : b2 &&& 0x7F < 128 := by rw [land_127]; omega
  have hne := (f32_div_ten_eq_zero (256 * (b2 &&& 0x7F) + b3)).not.mpr hmag
  have hnn : 0 ≤ f32 (((256 * (b2 &&& 0x7F) + b3 : ℕ) : ℚ) / 10) := f32_nonneg (by positivity)
  have hle := f32_temp_le (256 * (b2 &&& 0x7F) + b3) (by omega)
  refine ⟨?_, ?_, ?_, ?_⟩
  · rcases ht with ht | ht <;> rw [ht]
    · exact hne
    · exact neg_ne_zero.mpr hne
  · rcases ht with ht | ht <;> rw [ht]
    · rwa [abs_of_nonneg hnn]
    · rwa [abs_neg, abs_of_nonneg hnn]
  · rw [hh]; exact f32_nonneg (by positivity)
  · rw [hh]; exact f32_humidity_le _ (by omega)

/-- Witness for C13 (amended): the frame `02 58 01 04 5F`. -/
theorem dht_read_ok_reading_witness :
    (dht_read good_input.pulse ⟨0, 0, 0⟩).1 = DHT_OK ∧
    (dht_read good_input.pulse ⟨0, 0, 0⟩).2.temp_celsius ≠ 0 ∧
    |(dht_read good_input.pulse ⟨0, 0, 0⟩).2.temp_celsius| ≤ 3276.75 ∧
    0 ≤ (dht_read good_input.pulse ⟨0, 0, 0⟩).2.humidity ∧
    (dht_read good_input.pulse ⟨0, 0, 0⟩).2.humidity ≤ 6553.5 :=
  ⟨by rw [good_input_reads],
    dht_read_ok_reading good_input.pulse ⟨0, 0, 0⟩ (by rw [good_input_reads])⟩

/-- Counterexample for C14 as worded: the frame `FF FF 01 04 03` is accepted
with `DHT_OK` and stores humidity 6553.5. -/
theorem over_range_humidity_accepted :
    dht_read (pulsesOf [0xFF, 0xFF, 0x01, 0x04, 0x03]) ⟨0, 50, 20⟩ = (DHT_OK, ⟨0, 6553.5, 26⟩) ∧
    ¬ ((dht_read (pulsesOf [0xFF, 0xFF, 0x01, 0x04, 0x03]) ⟨0, 50, 20⟩).1 = DHT_OK →
      0 ≤ (dht_read (pulsesOf [0xFF, 0xFF, 0x01, 0x04, 0x03]) ⟨0, 50, 20⟩).2.humidity ∧
      (dht_read (pulsesOf [0xFF, 0xFF, 0x01, 0x04, 0x03]) ⟨0, 50, 20⟩).2.humidity ≤ 100) := by
  have h : dht_read (pulsesOf [0xFF, 0xFF, 0x01, 0x04, 0x03]) ⟨0, 50, 20⟩ =
      (DHT_OK, ⟨0, 6553.5, 26⟩) := by
    rw [dht_read_eq _ ⟨0, 50, 20⟩ 0xFF 0xFF 0x01 0x04 0x03 (by decide), if_pos (by decide),
      if_neg (by decide), f32_twenty_six]
    have h0 : f32 (((256 * 0xFF + 0xFF : ℕ) : ℚ) / 10) = 6553.5 := by
      have := roundNE_dyadic 24 13107 1 (by norm_num)
      unfold f32
      norm_num at this ⊢
      exact this
    rw [h0]
    rfl
  refine ⟨h, ?_⟩
  rw [h]
  intro hc
  have := (hc rfl).2
  norm_num at this

/-- C14 (amended): whenever `dht_read` returns `DHT_OK` for the assembled frame
`b0..b4`, the stored humidity lies between 0 and 6553.5; it is at most 100
exactly when the frame's humidity word `256 * b0 + b1` is at most 1000. -/
theorem dht_read_ok_humidity_range (pulse : ℕ → ℕ) (dht : dht_reading) (b0 b1 b2 b3 b4 : ℕ)
    (hframe : dht_read_frame pulse = [b0, b1, b2, b3, b4])
    (hok : (dht_read pulse dht).1 = DHT_OK) :
    0 ≤ (dht_read pulse dht).2.humidity ∧ (dht_read pulse dht).2.humidity ≤ 6553.5 ∧
    ((dht_read pulse dht).2.humidity ≤ 100 ↔ 256 * b0 + b1 ≤ 1000) := by
  obtain ⟨h0, h1, -, -, -⟩ := dht_read_frame_bytes pulse b0 b1 b2 b3 b4 hframe
  have hh : (dht_read pulse dht).2.humidity = f32 (((256 * b0 + b1 : ℕ) : ℚ) / 10) := by
    rw [dht_read_eq pulse dht b0 b1 b2 b3 b4 hframe] at hok ⊢
    by_cases hc : b4 = (b0 + b1 + b2 + b3) % 256
    · rw [if_pos hc] at hok ⊢
      by_cases hz : 256 * (b2 &&& 0x7F) + b3 = 0
      · rw [if_pos hz] at hok
        exact absurd hok (by decide : DHT_ERR_NAN ≠ DHT_OK)
      · rw [if_neg hz]
    · rw [if_neg hc] at hok
      exact absurd hok (by decide : DHT_ERR_CHECKSUM ≠ DHT_OK)
  rw [hh]
  exact ⟨f32_nonneg (by positivity), f32_humidity_le _ (by omega), f32_humidity_le_100_iff _⟩

/-- Witness for C14 (amended): the frame `02 58 01 04 5F` (humidity word 600). -/
theorem dht_read_ok_humidity_range_witness :
    dht_read_frame good_input.pulse = [0x02, 0x58, 0x01, 0x04, 0x5F] ∧
    (dht_read good_input.pulse ⟨0, 0, 0⟩).1 = DHT_OK ∧
    0 ≤ (dht_read good_input.pulse ⟨0, 0, 0⟩).2.humidity ∧
    (dht_read good_input.pulse ⟨0, 0, 0⟩).2.humidity ≤ 6553.5 ∧
    ((dht_read good_input.pulse ⟨0, 0, 0⟩).2.humidity ≤ 100 ↔ 256 * 0x02 + 0x58 ≤ 1000) :=
  ⟨by decide, by rw [good_input_reads],
    dht_read_ok_humidity_range good_input.pulse ⟨0, 0, 0⟩ 0x02 0x58 0x01 0x04 0x5F (by decide)
      (by rw [good_input_reads])⟩

/-- Counterexample for C15 as worded: a pass whose read succeeds overwrites the
stored sensor reading, and the pass that enters fail-safe switches the LED off;
both lie outside the two timers, the counter and the five actuator outputs. -/
theorem cycle_frame_spec_fails :
    (main_cycle good_input (initialise 0 0 ⟨0, 0, 0⟩)).temp_humidity_sensor = ⟨0, 60, 26⟩ ∧
    ¬ cycle_frame_spec good_input (initialise 0 0 ⟨0, 0, 0⟩) ∧
    (main_cycle fault_input nineteen_faults_state).led
      = false ∧
    ¬ cycle_frame_spec fault_input nineteen_faults_state := by
  have h1 : (main_cycle good_input (initialise 0 0 ⟨0, 0, 0⟩)).temp_humidity_sensor =
      ⟨0, 60, 26⟩ := by
    rw [good_input_cycle (initialise 0 0 ⟨0, 0, 0⟩) rfl rfl]
    rfl
  have h2 : (main_cycle fault_input
      nineteen_faults_state).led = false := by
    unfold main_cycle
    rw [if_neg (fault_input_fails _)]
    rfl
  refine ⟨h1, fun hs => ?_, h2, fun hs => ?_⟩
  · have h := hs.1
    rw [h1] at h
    have := congrArg dht_reading.humidity h
    norm_num [initialise, dht_init] at this
  · have h := hs.2
    rw [h2] at h
    revert h
    decide

/-- C15 (amended): the pass is deterministic in its explicit inputs. Two states
with the same failure counter, air timer, light timer and previous actuator
outputs, given the same pass inputs, end with the same five actuator outputs,
the same timers and the same counter, whatever reading and LED level they held
before, and they stay so over any further list of passes. Besides the timers,
the counter and the actuator outputs a pass writes the stored reading, which
becomes the result of `dht_read` (the pin never changes; a fault leaves the
whole reading as it was), and the LED, which is switched off when the fail-safe
branch runs (a failed read whose incremented counter is at least 20) and is
left as it was in every other pass. -/
theorem cycle_deterministic (inp : CycleInput) (s1 s2 : State)
    (hair : s1.last_air_cycle_time = s2.last_air_cycle_time)
    (hlight : s1.last_light_cycle_time = s2.last_light_cycle_time)
    (hcount : s1.temp_humidity_sensor_fail_cycles = s2.temp_humidity_sensor_fail_cycles)
    (hact : actuators s1 = actuators s2) :
    (actuators (main_cycle inp s1) = actuators (main_cycle inp s2) ∧
      (main_cycle inp s1).last_air_cycle_time = (main_cycle inp s2).last_air_cycle_time ∧
      (main_cycle inp s1).last_light_cycle_time = (main_cycle inp s2).last_light_cycle_time ∧
      (main_cycle inp s1).temp_humidity_sensor_fail_cycles =
        (main_cycle inp s2).temp_humidity_sensor_fail_cycles) ∧
    (∀ inps : List CycleInput,
      actuators (main_run inps s1) = actuators (main_run inps s2) ∧
      (main_run inps s1).last_air_cycle_time = (main_run inps s2).last_air_cycle_time ∧
      (main_run inps s1).last_light_cycle_time = (main_run inps s2).last_light_cycle_time ∧
      (main_run inps s1).temp_humidity_sensor_fail_cycles =
        (main_run inps s2).temp_humidity_sensor_fail_cycles) ∧
    ((main_cycle inp s1).temp_humidity_sensor = (dht_read inp.pulse s1.temp_humidity_sensor).2 ∧
      (main_cycle inp s1).temp_humidity_sensor.pin = s1.temp_humidity_sensor.pin ∧
      ((dht_read inp.pulse s1.temp_humidity_sensor).1 ≠ DHT_OK →
        (main_cycle inp s1).temp_humidity_sensor = s1.temp_humidity_sensor)) ∧
    (((dht_read inp.pulse s1.temp_humidity_sensor).1 ≠ DHT_OK →
        int8_wrap (s1.temp_humidity_sensor_fail_cycles + 1) ≥ 20 →
        (main_cycle inp s1).led = false) ∧
      ((dht_read inp.pulse s1.temp_humidity_sensor).1 ≠ DHT_OK →
        ¬ int8_wrap (s1.temp_humidity_sensor_fail_cycles + 1) ≥ 20 →
        (main_cycle inp s1).led = s1.led) ∧
      ((dht_read inp.pulse s1.temp_humidity_sensor).1 = DHT_OK →
        (main_cycle inp s1).led = s1.led)) := by
  refine ⟨main_cycle_agree inp s1 s2 hair hlight hcount hact,
    fun inps => main_run_agree inps s1 s2 hair hlight hcount hact,
    main_cycle_sensor inp s1, ?_, ?_, ?_⟩
  · intro hf h20
    rw [main_cycle_led, if_pos ⟨hf, h20⟩]
  · intro _ h20
    rw [main_cycle_led, if_neg (fun h => h20 h.2)]
  · intro hok
    rw [main_cycle_led, if_neg (fun h => h.1 hok)]

/-- Witness for C15 (amended): the fail-safe state and a copy of it holding
another reading and LED level, given the same good pass and then 30 further
passes; the LED of the copy stays on in the good pass; and the pass that enters
fail-safe from 19 recorded failures switches the LED off and keeps the reading. -/
theorem cycle_deterministic_witness :
    (fail_safe_state.last_air_cycle_time = fail_safe_state_relit.last_air_cycle_time ∧
      actuators fail_safe_state = actuators fail_safe_state_relit) ∧
    actuators (main_cycle good_input fail_safe_state) =
      actuators (main_cycle good_input fail_safe_state_relit) ∧
    (main_cycle good_input fail_safe_state).temp_humidity_sensor_fail_cycles =
      (main_cycle good_input fail_safe_state_relit).temp_humidity_sensor_fail_cycles ∧
    actuators (main_run (good_input :: List.replicate 30 fault_input) fail_safe_state) =
      actuators (main_run (good_input :: List.replicate 30 fault_input) fail_safe_state_relit) ∧
    (main_cycle good_input fail_safe_state_relit).led = true ∧
    (main_cycle fault_input nineteen_faults_state).led = false ∧
    (main_cycle fault_input nineteen_faults_state).temp_humidity_sensor = ⟨0, 60, 26⟩ :=
  ⟨⟨rfl, rfl⟩,
    (cycle_deterministic good_input fail_safe_state fail_safe_state_relit rfl rfl rfl rfl).1.1,
    (cycle_deterministic good_input fail_safe_state fail_safe_state_relit
      rfl rfl rfl rfl).1.2.2.2,
    ((cycle_deterministic good_input fail_safe_state fail_safe_state_relit
      rfl rfl rfl rfl).2.1 (good_input :: List.replicate 30 fault_input)).1,
    (cycle_deterministic good_input fail_safe_state_relit fail_safe_state_relit
      rfl rfl rfl rfl).2.2.2.2.2 (by rw [good_input_reads]),
    (cycle_deterministic fault_input nineteen_faults_state nineteen_faults_state
      rfl rfl rfl rfl).2.2.2.1 (fault_input_fails _) (by decide),
    (cycle_deterministic fault_input nineteen_faults_state nineteen_faults_state
      rfl rfl rfl rfl).2.2.1.2.2 (fault_input_fails _)⟩

/-- Counterexample for C16 as worded: at 30.0 degrees Celsius (86 Fahrenheit)
and 15 min after the last air cycle the read succeeds, `is_air_cycle_active`
would reset the timer, but the pass leaves `last_air_cycle_time` at 0. -/
theorem air_timer_independent_spec_fails :
    is_air_cycle_active hot_input.air_time 0 = (true, 900000000) ∧
    (main_cycle hot_input (initialise 0 0 ⟨0, 0, 0⟩)).last_air_cycle_time = 0 ∧
    ¬ air_timer_independent_spec hot_input (initialise 0 0 ⟨0, 0, 0⟩) := by
  have hok : (dht_read hot_input.pulse (initialise 0 0 ⟨0, 0, 0⟩).temp_humidity_sensor).1 =
      DHT_OK := by rw [hot_input_reads]
  have ha : is_air_cycle_active hot_input.air_time 0 = (true, 900000000) := by
    have := is_air_cycle_active_eq 900000000 0 (by norm_num) (by norm_num)
    rw [if_pos (by norm_num)] at this
    exact this
  have hl : (main_cycle hot_input (initialise 0 0 ⟨0, 0, 0⟩)).last_air_cycle_time = 0 := by
    rw [main_cycle_air_timer hot_input _ hok, hot_input_reads, if_pos (by norm_num)]
    rfl
  refine ⟨ha, hl, fun hs => ?_⟩
  have := hs hok (by decide)
  rw [hl] at this
  revert this
  decide

/-- C16 (amended): in a pass whose read succeeds, with `t = c * 9 / 5 + 32` for
the fresh reading `c`: when `t` is not above 80 the air-cycle timer is updated
by `is_air_cycle_active` (so an elapsed time of at least 15 min sets
`last_air_cycle_time` to the current time); when `t` is above 80 the fans are
on, `is_air_cycle_active` is not evaluated and `last_air_cycle_time` is left
unchanged. -/
theorem air_timer_gated_by_temperature (inp : CycleInput) (s : State)
    (hok : (dht_read inp.pulse s.temp_humidity_sensor).1 = DHT_OK)
    (hle : s.last_air_cycle_time ≤ inp.air_time) (hnow : inp.air_time < 2 ^ 64) :
    (¬ (dht_read inp.pulse s.temp_humidity_sensor).2.temp_celsius * 9 / 5 + 32 > 80 →
      (main_cycle inp s).last_air_cycle_time =
          (is_air_cycle_active inp.air_time s.last_air_cycle_time).2 ∧
        (900000000 ≤ inp.air_time - s.last_air_cycle_time →
          (main_cycle inp s).last_air_cycle_time = inp.air_time)) ∧
    ((dht_read inp.pulse s.temp_humidity_sensor).2.temp_celsius * 9 / 5 + 32 > 80 →
      (main_cycle inp s).last_air_cycle_time = s.last_air_cycle_time ∧
        (main_cycle inp s).fans = true) := by
  have h := main_cycle_air_timer inp s hok
  constructor
  · intro ht
    rw [if_neg ht] at h
    refine ⟨h, fun he => ?_⟩
    rw [h, is_air_cycle_active_eq _ _ hle hnow, if_pos (by omega)]
  · intro ht
    rw [if_pos ht] at h
    refine ⟨h, ?_⟩
    obtain ⟨k, hk⟩ := dht_read_ok_temp inp.pulse s.temp_humidity_sensor hok
    obtain ⟨h80, -⟩ := read_temperature_thresholds _ k hk
    unfold main_cycle
    rw [if_pos hok]
    simp only [fans_air_cycle, if_pos (h80.mpr ht)]

/-- Witness for C16 (amended): 15 min after time 0, a 26.0 degree reading
resets the air timer and a 30.0 degree reading leaves it at 0 with the fans on. -/
theorem air_timer_gated_by_temperature_witness :
    ((dht_read mild_input.pulse (initialise 0 0 ⟨0, 0, 0⟩).temp_humidity_sensor).1 = DHT_OK ∧
      (main_cycle mild_input (initialise 0 0 ⟨0, 0, 0⟩)).last_air_cycle_time = 900000000) ∧
    ((dht_read hot_input.pulse (initialise 0 0 ⟨0, 0, 0⟩).temp_humidity_sensor).1 = DHT_OK ∧
      (main_cycle hot_input (initialise 0 0 ⟨0, 0, 0⟩)).last_air_cycle_time = 0 ∧
      (main_cycle hot_input (initialise 0 0 ⟨0, 0, 0⟩)).fans = true) := by
  have hok1 : (dht_read mild_input.pulse (initialise 0 0 ⟨0, 0, 0⟩).temp_humidity_sensor).1 =
      DHT_OK := by rw [mild_input_reads]
  have hok2 : (dht_read hot_input.pulse (initialise 0 0 ⟨0, 0, 0⟩).temp_humidity_sensor).1 =
      DHT_OK := by rw [hot_input_reads]
  have h1 := (air_timer_gated_by_temperature mild_input (initialise 0 0 ⟨0, 0, 0⟩) hok1
    (by decide) (by decide)).1 (by rw [mild_input_reads]; norm_num)
  have h2 := (air_timer_gated_by_temperature hot_input (initialise 0 0 ⟨0, 0, 0⟩) hok2
    (by decide) (by decide)).2 (by rw [hot_input_reads]; norm_num)
  exact ⟨⟨hok1, h1.2 (by decide)⟩, ⟨hok2, h2.1, h2.2⟩⟩

/-- C17: the frame assembled by `dht_read` packs the 40 decoded bit values
most significant bit first, eight per byte: byte `j` is the sum over `i < 8` of
`v (8 * j + i) * 2 ^ (7 - i)`, in the order humidity-high, humidity-low,
temperature-high, temperature-low, checksum. -/
theorem dht_read_frame_packs_msb_first (pulse : ℕ → ℕ) (dht : dht_reading) :
    dht_read_frame pulse =
      [∑ i ∈ Finset.range 8, decoded_bit pulse i * 2 ^ (7 - i),
       ∑ i ∈ Finset.range 8, decoded_bit pulse (8 + i) * 2 ^ (7 - i),
       ∑ i ∈ Finset.range 8, decoded_bit pulse (16 + i) * 2 ^ (7 - i),
       ∑ i ∈ Finset.range 8, decoded_bit pulse (24 + i) * 2 ^ (7 - i),
       ∑ i ∈ Finset.range 8, decoded_bit pulse (32 + i) * 2 ^ (7 - i)] ∧
    (∀ j < 5, (dht_read_frame pulse).getD j 0 =
      ∑ i ∈ Finset.range 8, decoded_bit pulse (8 * j + i) * 2 ^ (7 - i)) ∧
    dht_read pulse dht = dht_read_decode ((List.range 5).map (fun j =>
      ∑ i ∈ Finset.range 8, decoded_bit pulse (8 * j + i) * 2 ^ (7 - i))) dht := by
  have h := dht_read_frame_eq pulse
  refine ⟨?_, ?_, ?_⟩
  · rw [h]
    have hr5 : List.range 5 = [0, 1, 2, 3, 4] := by decide
    rw [hr5]
    simp only [List.map_cons, List.map_nil, Nat.reduceMul, zero_add]
  · intro j hj
    rw [h]
    have hr5 : List.range 5 = [0, 1, 2, 3, 4] := by decide
    rw [hr5]
    interval_cases j <;> rfl
  · unfold dht_read
    rw [h]

/-- C18: whenever `dht_read` returns `DHT_ERR_CHECKSUM` or `DHT_ERR_NAN`, the
reading passed in is left exactly as it was: pin, humidity and temperature. -/
theorem dht_read_fault_keeps_reading (pulse : ℕ → ℕ) (dht : dht_reading)
    (hfault : (dht_read pulse dht).1 = DHT_ERR_CHECKSUM ∨ (dht_read pulse dht).1 = DHT_ERR_NAN) :
    (dht_read pulse dht).2 = dht ∧
    (dht_read pulse dht).2.pin = dht.pin ∧
    (dht_read pulse dht).2.humidity = dht.humidity ∧
    (dht_read pulse dht).2.temp_celsius = dht.temp_celsius := by
  have hne : (dht_read pulse dht).1 ≠ DHT_OK := by
    rcases hfault with h | h <;> rw [h] <;> decide
  have := dht_read_fault_snd pulse dht hne
  rw [this]
  exact ⟨rfl, rfl, rfl, rfl⟩

/-- Witness for C18: a checksum fault (`02 58 01 04 5E`) and a zero-temperature
fault (`02 58 80 00 DA`) on a reading holding 60.0 and 26.0. -/
theorem dht_read_fault_keeps_reading_witness :
    ((dht_read (pulsesOf [0x02, 0x58, 0x01, 0x04, 0x5E]) ⟨0, 60, 26⟩).1 = DHT_ERR_CHECKSUM ∧
      (dht_read (pulsesOf [0x02, 0x58, 0x01, 0x04, 0x5E]) ⟨0, 60, 26⟩).2 = ⟨0, 60, 26⟩) ∧
    ((dht_read (pulsesOf [0x02, 0x58, 0x80, 0x00, 0xDA]) ⟨0, 60, 26⟩).1 = DHT_ERR_NAN ∧
      (dht_read (pulsesOf [0x02, 0x58, 0x80, 0x00, 0xDA]) ⟨0, 60, 26⟩).2 = ⟨0, 60, 26⟩) := by
  have h1 : (dht_read (pulsesOf [0x02, 0x58, 0x01, 0x04, 0x5E]) ⟨0, 60, 26⟩).1 =
      DHT_ERR_CHECKSUM := by
    rw [dht_read_eq _ _ 0x02 0x58 0x01 0x04 0x5E (by decide), if_neg (by decide)]
  have h2 : (dht_read (pulsesOf [0x02, 0x58, 0x80, 0x00, 0xDA]) ⟨0, 60, 26⟩).1 =
      DHT_ERR_NAN := by
    rw [dht_read_eq _ _ 0x02 0x58 0x80 0x00 0xDA (by decide), if_pos (by decide),
      if_pos (by decide)]
  exact ⟨⟨h1, (dht_read_fault_keeps_reading _ _ (Or.inl h1)).1⟩,
    ⟨h2, (dht_read_fault_keeps_reading _ _ (Or.inr h2)).1⟩⟩

/-- C19: over a clock that never runs backwards, starting from the state left
by the start-up function (both timers set from the clock), at every pass the
stored `last_air_cycle_time` and `last_light_cycle_time` are at most the clock
values that `is_air_cycle_active` and `is_light_cycle_active` read in that
pass, so the unsigned 64-bit subtractions give the exact differences. -/
theorem timers_never_ahead_of_clock (air_time light_time : ℕ) (junk : dht_reading)
    (pre : List CycleInput) (inp : CycleInput) (post : List CycleInput)
    (hstart : air_time ≤ light_time)
    (hclock : clock_monotone light_time (pre ++ inp :: post) = true)
    (hbound : inp.light_time < 2 ^ 64) :
    (main_run pre (initialise air_time light_time junk)).last_air_cycle_time ≤ inp.air_time ∧
    (main_run pre (initialise air_time light_time junk)).last_light_cycle_time ≤ inp.light_time ∧
    u64_sub inp.air_time (main_run pre (initialise air_time light_time junk)).last_air_cycle_time =
      inp.air_time - (main_run pre (initialise air_time light_time junk)).last_air_cycle_time ∧
    u64_sub inp.light_time
        (main_run pre (initialise air_time light_time junk)).last_light_cycle_time =
      inp.light_time -
        (main_run pre (initialise air_time light_time junk)).last_light_cycle_time := by
  obtain ⟨ha, hl⟩ := main_run_timers_le pre inp post (initialise air_time light_time junk)
    light_time hstart (le_refl _) hclock
  have hal : inp.air_time ≤ inp.light_time := by
    have : ∀ (pre : List CycleInput) (p : ℕ), clock_monotone p (pre ++ inp :: post) = true →
        inp.air_time ≤ inp.light_time := by
      intro pre
      induction pre with
      | nil =>
        intro p hm
        simp only [List.nil_append, clock_monotone, Bool.and_eq_true, decide_eq_true_eq] at hm
        exact hm.1.2
      | cons x pre ih =>
        intro p hm
        simp only [List.cons_append, clock_monotone, Bool.and_eq_true, decide_eq_true_eq] at hm
        exact ih _ hm.2
    exact this pre light_time hclock
  exact ⟨ha, hl, u64_sub_eq _ _ ha (by omega), u64_sub_eq _ _ hl hbound⟩

/-- Witness for C19: start-up at time 0, a mild pass at 15 min (which resets
the air timer to 900000000) and then a pass at 900000000 again. -/
theorem timers_never_ahead_of_clock_witness :
    (0 ≤ 0 ∧ clock_monotone 0 ([mild_input] ++ mild_input :: []) = true ∧
      mild_input.light_time < 2 ^ 64) ∧
    (main_run [mild_input] (initialise 0 0 ⟨0, 0, 0⟩)).last_air_cycle_time ≤
      mild_input.air_time ∧
    (main_run [mild_input] (initialise 0 0 ⟨0, 0, 0⟩)).last_light_cycle_time ≤
      mild_input.light_time :=
  ⟨⟨le_refl 0, by decide, by decide⟩,
    (timers_never_ahead_of_clock 0 0 ⟨0, 0, 0⟩ [mild_input] mild_input [] (le_refl 0)
      (by decide) (by decide)).1,
    (timers_never_ahead_of_clock 0 0 ⟨0, 0, 0⟩ [mild_input] mild_input [] (le_refl 0)
      (by decide) (by decide)).2.1⟩

end FruitingChamber
